import Mathlib

/-!
Verification of `src/database/init_db.py`, a schema bootstrap/migration
utility for a single SQLite database file.

The script is embedded shallowly:

* SQLite values, tables and databases are explicit Lean structures;
  the few SQL statements the script issues (`CREATE TABLE IF NOT EXISTS`,
  `PRAGMA table_info`, `ALTER TABLE ... ADD COLUMN`,
  `CREATE TRIGGER IF NOT EXISTS`, `INSERT OR REPLACE`, `SELECT COUNT(*)`)
  are modelled as functions on those structures, following SQLite's
  documented behaviour for exactly those statements (including the
  restriction that `ALTER TABLE ... ADD COLUMN` rejects a
  `CURRENT_TIMESTAMP` default, and `REPLACE` semantics on the
  `app_info.key` UNIQUE column).
* `CURRENT_TIMESTAMP` is modelled as an abstract clock value `now : Nat`
  carried by the world state; `SqlVal.tsV n` is the timestamp text at
  abstract time `n`, ordered like the real `YYYY-MM-DD HH:MM:SS` strings.
* The filesystem is reduced to the paths the script touches:
  `db_connection.txt` (relative to the working directory), the
  `db_visualizer` directory with its `sqlite.env` file, and the database
  files keyed by absolute path.  Failures of the fallible filesystem
  calls (`sqlite3.connect`, the two `open(..., "w")` writes,
  `os.makedirs("db_visualizer")`, `conn.commit`) are modelled by
  environment fault flags in the world.
* The regex searches of `_parse_db_path_from_connection_file` are
  embedded with Python `re.MULTILINE` semantics: the pattern is tried at
  every line start (leftmost match wins), `\s*` may greedily cross
  newlines with backtracking, and `(.+)$` captures a non-empty run of
  non-newline characters.  `\s` is modelled on its ASCII fragment.
* `os.path.abspath` / `os.path.normpath` / `os.path.join` /
  `os.path.basename` are embedded following `posixpath`.
-/

namespace InitDb

/-- An SQLite value as used by this script: NULL, an integer, a text
string, or the text produced by `CURRENT_TIMESTAMP` at abstract time
`n` (those texts compare chronologically, so they are kept abstract). -/
inductive SqlVal where
  | null : SqlVal
  | intV : Int → SqlVal
  | textV : String → SqlVal
  | tsV : Nat → SqlVal
  deriving DecidableEq, Repr

/-- The default clause of a column declaration: none, a constant, or
`CURRENT_TIMESTAMP`. -/
inductive ColDefault where
  | noneD : ColDefault
  | constD : SqlVal → ColDefault
  | currentTs : ColDefault
  deriving DecidableEq, Repr

/-- A column declaration, as written in the script's CREATE TABLE /
ADD COLUMN texts.  `rowidAlias` marks `INTEGER PRIMARY KEY AUTOINCREMENT`
columns, `uniq` marks a `UNIQUE` column constraint. -/
structure ColumnDef where
  name : String
  type : String
  notnull : Bool
  dflt : ColDefault
  rowidAlias : Bool
  uniq : Bool
  deriving DecidableEq, Repr

/-- A table: its declared columns, its rows (each row an association
list column-name ↦ value, aligned with `cols`), and the AUTOINCREMENT
sequence counter (`sqlite_sequence`); SQLite keeps `seq` at least the
largest rowid ever used. -/
structure Table where
  cols : List ColumnDef
  rows : List (List (String × SqlVal))
  seq : Nat
  deriving DecidableEq, Repr

/-- A database file: tables by name, and the names of the triggers
present.  (The script only ever creates the one fixed trigger, so a
trigger is identified by its name; its body is modelled by
`updateNotes` below.) -/
structure DB where
  tables : List (String × Table)
  triggers : List String
  deriving DecidableEq, Repr

def emptyDB : DB := { tables := [], triggers := [] }

/-- Replace the binding of `k` in place, or append it. -/
def upsertA {α : Type} (l : List (String × α)) (k : String) (v : α) : List (String × α) :=
  match l with
  | [] => [(k, v)]
  | (k', v') :: rest => if k' = k then (k, v) :: rest else (k', v') :: upsertA rest k v

/-- `DB_NAME = "myapp.db"` (init_db.py line 18). -/
def DB_NAME : String := "myapp.db"

/-- Python `\s` (ASCII fragment): space, tab, newline, carriage return,
vertical tab, form feed. -/
def isPySpace (c : Char) : Bool :=
  c == ' ' || c == '\t' || c == '\n' || c == '\r' || c == '\x0b' || c == '\x0c'

/-- Python `str.strip()` on a character list. -/
def stripL (l : List Char) : List Char :=
  ((l.dropWhile isPySpace).reverse.dropWhile isPySpace).reverse

/-- The capture group of `\s*(.+)$` (MULTILINE) applied at the head of
the list, with the regex engine's greedy matching and backtracking:
`\s*` prefers to consume a whitespace character and only gives it back
to `.` (which cannot match a newline) when nothing further matches. -/
def capAfterWs : List Char → Option (List Char)
  | [] => none
  | c :: rest =>
    if isPySpace c then
      match capAfterWs rest with
      | some r => some r
      | none => if c == '\n' then none else some (c :: rest.takeWhile (fun x => !(x == '\n')))
    else
      some (c :: rest.takeWhile (fun x => !(x == '\n')))

def filePathLit : List Char := "File path:".toList

def connStringLit : List Char := "Connection string:".toList

def sqliteSchemeLit : List Char := "sqlite:////".toList

/-- Try `#\s*File path:\s*(.+)$` at this position (which `searchAux`
guarantees is a line start).  `\s*` before the literal needs no
backtracking because the literal starts with a non-space character. -/
def matchFilePathAt (l : List Char) : Option (List Char) :=
  match l with
  | c :: rest =>
    if c = '#' then
      let r := rest.dropWhile isPySpace
      if r.take 10 = filePathLit then capAfterWs (r.drop 10) else none
    else none
  | [] => none

/-- Try `#\s*Connection string:\s*sqlite:////(.+)$` at this position. -/
def matchConnStringAt (l : List Char) : Option (List Char) :=
  match l with
  | c :: rest =>
    if c = '#' then
      let r := rest.dropWhile isPySpace
      if r.take 18 = connStringLit then
        let r2 := (r.drop 18).dropWhile isPySpace
        if r2.take 11 = sqliteSchemeLit then
          let body := (r2.drop 11).takeWhile (fun x => !(x == '\n'))
          if body = [] then none else some body
        else none
      else none
    else none
  | [] => none

/-- `re.search` with a `^`-anchored MULTILINE pattern: try the pattern
at each line start from left to right; the first success wins.  The
flag records whether the current position is a line start. -/
def searchAux (f : List Char → Option (List Char)) : Bool → List Char → Option (List Char)
  | true, l =>
    match f l with
    | some r => some r
    | none =>
      match l with
      | [] => none
      | c :: cs => searchAux f (c == '\n') cs
  | false, l =>
    match l with
    | [] => none
    | c :: cs => searchAux f (c == '\n') cs

def searchPat (f : List Char → Option (List Char)) (l : List Char) : Option (List Char) :=
  searchAux f true l

/-- The fallback branch of `_parse_db_path_from_connection_file`
(init_db.py lines 40-47): search for the connection-string pattern and
prefix the stripped capture with "/".  (`"/" + ...` is never empty, so
the source's `if candidate:` always passes here.) -/
def parseConnStringFallback (content : String) : Option String :=
  match searchPat matchConnStringAt content.toList with
  | some g =>
    let candidate := '/' :: stripL g
    if candidate = [] then none else some (String.mk candidate)
  | none => none

/-- `_parse_db_path_from_connection_file` applied to the text of an
existing, readable file (init_db.py lines 33-47): prefer the
`# File path:` pattern; if it is missing or its stripped capture is
empty, fall back to the connection-string pattern. -/
def parseDbPathFromContent (content : String) : Option String :=
  match searchPat matchFilePathAt content.toList with
  | some g =>
    let candidate := stripL g
    if candidate = [] then parseConnStringFallback content
    else some (String.mk candidate)
  | none => parseConnStringFallback content

/-- `_parse_db_path_from_connection_file` (init_db.py lines 24-47): an
absent file yields None.  (An unreadable file also degrades to None in
the source; read failures are not modelled separately.) -/
def parseDbPathFromConnectionFile (file : Option String) : Option String :=
  match file with
  | none => none
  | some content => parseDbPathFromContent content

/-- Python `path.split('/')`: split at every slash, keeping empty
components. -/
def splitOnSlash : List Char → List (List Char)
  | [] => [[]]
  | c :: rest =>
    let r := splitOnSlash rest
    if c = '/' then [] :: r
    else
      match r with
      | h :: t => (c :: h) :: t
      | [] => [[c]]

/-- Python `'/'.join(components)`. -/
def joinSlash : List (List Char) → List Char
  | [] => []
  | [c] => c
  | c :: rest => c ++ '/' :: joinSlash rest

/-- `path.startswith('/')`. -/
def isAbsB (p : String) : Bool :=
  match p.toList with
  | c :: _ => c == '/'
  | [] => false

/-- `posixpath.normpath` (the CPython algorithm: collapse empty and
`.` components, resolve `..` where possible, preserve a double — but
not triple — leading slash). -/
def normpath (p : String) : String :=
  if p = "" then "."
  else
    let l := p.toList
    let slashes : Nat :=
      if l.take 2 = ['/', '/'] && !(l.take 3 = ['/', '/', '/']) then 2
      else if l.take 1 = ['/'] then 1 else 0
    let comps := splitOnSlash l
    let newComps := comps.foldl
      (fun acc comp =>
        if comp = [] || comp = ['.'] then acc
        else if !(comp = ['.', '.']) || (slashes == 0 && acc = []) ||
                (!(acc = []) && acc.getLast? = some ['.', '.']) then acc ++ [comp]
        else if !(acc = []) then acc.dropLast
        else acc)
      ([] : List (List Char))
    let res := List.replicate slashes '/' ++ joinSlash newComps
    if res = [] then "." else String.mk res

/-- `posixpath.join cwd p` for a `p` already known not to start with
"/" (the only way the script calls it, through `abspath`). -/
def joinPath (cwd p : String) : String :=
  if cwd = "" then p
  else if cwd.toList.getLast? = some '/' then cwd ++ p
  else cwd ++ "/" ++ p

/-- `os.path.abspath` relative to the working directory `cwd`. -/
def abspath (cwd p : String) : String :=
  if isAbsB p then normpath p else normpath (joinPath cwd p)

/-- `os.path.basename`: everything after the last "/". -/
def basename (p : String) : String :=
  String.mk ((p.toList.reverse.takeWhile (fun c => !(c == '/'))).reverse)

/-- `_resolve_db_path` (init_db.py lines 50-58): the descriptor file is
authoritative when it parses to a truthy (non-empty) path; otherwise
fall back to `DB_NAME`; either way resolve to an absolute path. -/
def resolveDbPath (cwd : String) (connFile : Option String) : String :=
  match parseDbPathFromConnectionFile connFile with
  | some p => if p = "" then abspath cwd DB_NAME else abspath cwd p
  | none => abspath cwd DB_NAME

/-- `_table_exists` (init_db.py lines 61-67). -/
def tableExists (db : DB) (name : String) : Bool :=
  (db.tables.lookup name).isSome

/-- The column names reported by `PRAGMA table_info` as used by
`_get_table_columns` (init_db.py lines 70-75); a missing table reports
no columns. -/
def colNamesOf (db : DB) (name : String) : List String :=
  match db.tables.lookup name with
  | some t => t.cols.map (fun c => c.name)
  | none => []

/-- `CREATE TABLE IF NOT EXISTS name (...)`: a no-op when the table
exists, otherwise a fresh empty table with the declared columns. -/
def createTableIfNotExists (db : DB) (name : String) (cols : List ColumnDef) : DB :=
  if tableExists db name then db
  else { db with tables := db.tables ++ [(name, { cols := cols, rows := [], seq := 0 })] }

/-- The value a column default produces when a row is materialised with
that default at abstract time `now`. -/
def defaultVal (d : ColDefault) (now : Nat) : SqlVal :=
  match d with
  | ColDefault.noneD => SqlVal.null
  | ColDefault.constD v => v
  | ColDefault.currentTs => SqlVal.tsV now

/-- `ALTER TABLE name ADD COLUMN ...` (init_db.py line 98), with
SQLite's documented restrictions: the new column may not default to
`CURRENT_TIMESTAMP`, and a NOT NULL column must have a non-NULL
default.  On success every existing row receives the default value for
the new column (a constant, so `now` is irrelevant here). -/
def alterAddColumn (db : DB) (name : String) (c : ColumnDef) : Except String DB :=
  match db.tables.lookup name with
  | none => Except.error ("no such table: " ++ name)
  | some t =>
    if c.dflt == ColDefault.currentTs then
      Except.error "Cannot add a column with non-constant default"
    else if c.notnull && c.dflt == ColDefault.noneD then
      Except.error "Cannot add a NOT NULL column with default value NULL"
    else
      let t2 : Table :=
        { t with cols := t.cols ++ [c],
                 rows := t.rows.map (fun r => r ++ [(c.name, defaultVal c.dflt 0)]) }
      Except.ok { db with tables := upsertA db.tables name t2 }

/-- The ADD COLUMN loop of `_ensure_table_with_required_columns`
(init_db.py lines 94-98).  `existing` is the column-name set computed
once, before the loop, exactly as in the source. -/
def addCols (db : DB) (name : String) (existing : List String) :
    List ColumnDef → DB × Option String
  | [] => (db, none)
  | c :: rest =>
    if existing.contains c.name then addCols db name existing rest
    else
      match alterAddColumn db name c with
      | Except.ok d => addCols d name existing rest
      | Except.error e => (db, some e)

/-- `_ensure_table_with_required_columns` (init_db.py lines 78-98). -/
def ensureTable (db : DB) (name : String) (createCols : List ColumnDef)
    (reqCols : List ColumnDef) : DB × Option String :=
  let db1 := createTableIfNotExists db name createCols
  addCols db1 name (colNamesOf db1 name) reqCols

def trigName : String := "notes_set_updated_at"

/-- `_ensure_notes_updated_at_trigger` (init_db.py lines 101-119):
`CREATE TRIGGER IF NOT EXISTS notes_set_updated_at ...`. -/
def ensureNotesUpdatedAtTrigger (db : DB) : DB :=
  if db.triggers.contains trigName then db
  else { db with triggers := db.triggers ++ [trigName] }

/-- The `app_info` CREATE TABLE column list (init_db.py lines 145-152). -/
def appInfoCols : List ColumnDef :=
  [ { name := "id", type := "INTEGER", notnull := false, dflt := ColDefault.noneD,
      rowidAlias := true, uniq := false },
    { name := "key", type := "TEXT", notnull := true, dflt := ColDefault.noneD,
      rowidAlias := false, uniq := true },
    { name := "value", type := "TEXT", notnull := false, dflt := ColDefault.noneD,
      rowidAlias := false, uniq := false },
    { name := "created_at", type := "TIMESTAMP", notnull := false, dflt := ColDefault.currentTs,
      rowidAlias := false, uniq := false } ]

/-- The `users` CREATE TABLE column list (init_db.py lines 159-165). -/
def usersCols : List ColumnDef :=
  [ { name := "id", type := "INTEGER", notnull := false, dflt := ColDefault.noneD,
      rowidAlias := true, uniq := false },
    { name := "username", type := "TEXT", notnull := true, dflt := ColDefault.noneD,
      rowidAlias := false, uniq := true },
    { name := "email", type := "TEXT", notnull := true, dflt := ColDefault.noneD,
      rowidAlias := false, uniq := true },
    { name := "created_at", type := "TIMESTAMP", notnull := false, dflt := ColDefault.currentTs,
      rowidAlias := false, uniq := false } ]

/-- The `notes` CREATE TABLE column list (init_db.py lines 174-181). -/
def notesCols : List ColumnDef :=
  [ { name := "id", type := "INTEGER", notnull := false, dflt := ColDefault.noneD,
      rowidAlias := true, uniq := false },
    { name := "title", type := "TEXT", notnull := true, dflt := ColDefault.noneD,
      rowidAlias := false, uniq := false },
    { name := "content", type := "TEXT", notnull := true, dflt := ColDefault.noneD,
      rowidAlias := false, uniq := false },
    { name := "created_at", type := "TEXT", notnull := false, dflt := ColDefault.currentTs,
      rowidAlias := false, uniq := false },
    { name := "updated_at", type := "TEXT", notnull := false, dflt := ColDefault.currentTs,
      rowidAlias := false, uniq := false } ]

/-- The `required_columns` list passed for `notes`
(init_db.py lines 183-188). -/
def notesReqCols : List ColumnDef :=
  [ { name := "title", type := "TEXT", notnull := true, dflt := ColDefault.constD (SqlVal.textV ""),
      rowidAlias := false, uniq := false },
    { name := "content", type := "TEXT", notnull := true, dflt := ColDefault.constD (SqlVal.textV ""),
      rowidAlias := false, uniq := false },
    { name := "created_at", type := "TEXT", notnull := false, dflt := ColDefault.currentTs,
      rowidAlias := false, uniq := false },
    { name := "updated_at", type := "TEXT", notnull := false, dflt := ColDefault.currentTs,
      rowidAlias := false, uniq := false } ]

/-- The schema-ensuring stage of `main`'s try block
(init_db.py lines 142-192): the three `_ensure_table_with_required_columns`
calls followed by `_ensure_notes_updated_at_trigger`, stopping at the
first error.  The returned database reflects the statements that
succeeded: in the source each DDL statement is autocommitted by the
sqlite3 driver as soon as it executes. -/
def ensureAllTables (db : DB) : DB × Option String :=
  match ensureTable db "app_info" appInfoCols [] with
  | (d1, some e) => (d1, some e)
  | (d1, none) =>
    match ensureTable d1 "users" usersCols [] with
    | (d2, some e) => (d2, some e)
    | (d2, none) =>
      match ensureTable d2 "notes" notesCols notesReqCols with
      | (d3, some e) => (d3, some e)
      | (d3, none) => (ensureNotesUpdatedAtTrigger d3, none)

/-- The freshly inserted `app_info` row: the named key and value, the
next AUTOINCREMENT rowid, and every other column's default. -/
def newAppInfoRow (t : Table) (k v : String) (now : Nat) : List (String × SqlVal) :=
  t.cols.map (fun c =>
    (c.name,
      if c.name == "key" then SqlVal.textV k
      else if c.name == "value" then SqlVal.textV v
      else if c.rowidAlias then SqlVal.intV (Int.ofNat (t.seq + 1))
      else defaultVal c.dflt now))

/-- One `INSERT OR REPLACE INTO app_info (key, value) VALUES (?, ?)`
(init_db.py lines 195-210).  REPLACE deletes the rows that would
violate the `key` UNIQUE constraint (when the key column carries one)
and inserts a fresh row: unspecified columns take their defaults, the
rowid alias takes the next AUTOINCREMENT value, and a NOT NULL column
without a default makes the statement fail.  (Rowid collisions cannot
occur because AUTOINCREMENT keeps `seq` at least the largest rowid.) -/
def seedStep (db : DB) (now : Nat) (k v : String) : DB × Option String :=
  match db.tables.lookup "app_info" with
  | none => (db, some "no such table: app_info")
  | some t =>
    match t.cols.find? (fun c => c.name == "key"), t.cols.find? (fun c => c.name == "value") with
    | some kc, some _ =>
      if t.cols.any (fun c => c.notnull && c.dflt == ColDefault.noneD && !c.rowidAlias &&
          !(c.name == "key") && !(c.name == "value")) then
        (db, some "NOT NULL constraint failed")
      else
        let kept :=
          if kc.uniq then t.rows.filter (fun r => !(r.lookup "key" == some (SqlVal.textV k)))
          else t.rows
        let t2 : Table := { t with rows := kept ++ [newAppInfoRow t k v now], seq := t.seq + 1 }
        ({ db with tables := upsertA db.tables "app_info" t2 }, none)
    | _, _ => (db, some "table app_info has no such column")

/-- A sequence of seed upserts, stopping at the first error. -/
def seedList (db : DB) (now : Nat) : List (String × String) → DB × Option String
  | [] => (db, none)
  | (k, v) :: rest =>
    match seedStep db now k v with
    | (d, some e) => (d, some e)
    | (d, none) => seedList d now rest

/-- The literal seed rows (init_db.py lines 195-210). -/
def seedPairs : List (String × String) :=
  [("project_name", "database"), ("version", "0.1.0"), ("author", "John Doe"), ("description", "")]

def seedAll (db : DB) (now : Nat) : DB × Option String :=
  seedList db now seedPairs

/-- `SELECT COUNT(*) FROM sqlite_master WHERE type='table' AND name NOT
LIKE 'sqlite_%'` (init_db.py lines 215-218). -/
def countUserTables (db : DB) : Nat :=
  (db.tables.filter (fun nt => !("sqlite_".toList.isPrefixOf nt.1.toList))).length

/-- `SELECT COUNT(*) FROM app_info` (init_db.py lines 219-220); only
reached after seeding ensured the table exists. -/
def countAppInfoRows (db : DB) : Nat :=
  match db.tables.lookup "app_info" with
  | some t => t.rows.length
  | none => 0

/-- Outcome of the try/except/finally database section of `main`. -/
structure PhaseOut where
  db : DB
  stats : Option (Nat × Nat)
  err : Option String
  deriving DecidableEq, Repr

/-- The database section of `main` (init_db.py lines 136-227): connect,
ensure the three tables, install the trigger, run the four seed
upserts, commit, and read the two statistics.  `db0` is the database
file's content (an absent file behaves as an empty database).  The
returned `db` is what is persisted on disk afterwards: DDL statements
are autocommitted as they execute, while the seed INSERTs live in one
transaction that is rolled back when the connection is closed without
the final commit; any exception is re-raised (`err`) after the
`finally` block closes the connection. -/
def dbPhase (db0 : DB) (now : Nat) (connectFails commitFails : Bool) : PhaseOut :=
  if connectFails then { db := db0, stats := none, err := some "unable to open database file" }
  else
    match ensureAllTables db0 with
    | (d1, some e) => { db := d1, stats := none, err := some e }
    | (d1, none) =>
      match seedAll d1 now with
      | (_, some e) => { db := d1, stats := none, err := some e }
      | (d2, none) =>
        if commitFails then { db := d1, stats := none, err := some "disk I/O error" }
        else { db := d2, stats := some (countUserTables d2, countAppInfoRows d2), err := none }

/-- The connection-descriptor text written at init_db.py lines 233-237. -/
def connDescriptorContent (dbPath : String) : String :=
  "# SQLite connection methods:\n" ++
  "# Python: sqlite3.connect('" ++ basename dbPath ++ "')\n" ++
  "# Connection string: sqlite:///" ++ dbPath ++ "\n" ++
  "# File path: " ++ dbPath ++ "\n"

/-- The environment file written at init_db.py lines 248-249. -/
def envFileContent (dbPath : String) : String :=
  "export SQLITE_DB=\"" ++ dbPath ++ "\"\n"

/-- The world state a run starts from and leaves behind: working
directory, the contents of `db_connection.txt` and
`db_visualizer/sqlite.env` (None when absent), whether the
`db_visualizer` directory exists, the database files by absolute path,
the abstract clock, and the environment fault flags for the fallible
calls. -/
structure World where
  cwd : String
  connFile : Option String
  vizDirExists : Bool
  envFile : Option String
  dbFiles : List (String × DB)
  now : Nat
  connectFails : Bool
  commitFails : Bool
  connWriteFails : Bool
  mkdirFails : Bool
  envWriteFails : Bool
  deriving DecidableEq, Repr

/-- The database file the resolver points at (an absent file reads as
an empty database, as `sqlite3.connect` creates it). -/
def dbFileAt (w : World) (p : String) : DB :=
  (w.dbFiles.lookup p).getD emptyDB

/-- Run events, for stating the acquisition/release discipline: the
connection is opened and closed, a database-phase exception is
re-raised, the descriptor write succeeds or is downgraded to a warning,
the `db_visualizer` directory is created or its creation raises
(uncaught), the env-file write succeeds or is downgraded to a
warning. -/
inductive Ev where
  | openC | closeC | raiseDb | writeConn | warnConn | mkdirViz | raiseMkdir | writeEnv | warnEnv
  deriving DecidableEq, Repr

/-- Outcome of the exporter section (init_db.py lines 229-283). -/
structure ExpOut where
  world : World
  exitCode : Nat
  warnings : Nat
  trace : List Ev
  deriving DecidableEq, Repr

/-- The exporter section of `main` (init_db.py lines 229-283): write
`db_connection.txt` (failure caught, warning), create `db_visualizer`
if missing (failure NOT caught: the `os.makedirs` call at line 244 is
outside any try block, so it aborts the run), write
`db_visualizer/sqlite.env` (failure caught, warning).  The remaining
prints and the best-effort sqlite3-CLI probe have no modelled effect. -/
def exporterPhase (w1 : World) (dbPath : String) (cwf mdf ewf : Bool) : ExpOut :=
  let s2 :=
    if cwf then (w1, 1, [Ev.warnConn])
    else ({ w1 with connFile := some (connDescriptorContent dbPath) }, 0, [Ev.writeConn])
  let w2 := s2.1
  if !w2.vizDirExists && mdf then
    { world := w2, exitCode := 1, warnings := s2.2.1, trace := s2.2.2 ++ [Ev.raiseMkdir] }
  else
    let s3 :=
      if w2.vizDirExists then (w2, ([] : List Ev))
      else ({ w2 with vizDirExists := true }, [Ev.mkdirViz])
    let s4 :=
      if ewf then (s3.1, 1, [Ev.warnEnv])
      else ({ s3.1 with envFile := some (envFileContent dbPath) }, 0, [Ev.writeEnv])
    { world := s4.1, exitCode := 0, warnings := s2.2.1 + s4.2.1, trace := s2.2.2 ++ s3.2 ++ s4.2.2 }

/-- Result of one whole run of the script. -/
structure MainResult where
  world : World
  exitCode : Nat
  dbError : Option String
  stats : Option (Nat × Nat)
  warnings : Nat
  trace : List Ev
  deriving DecidableEq, Repr

/-- The path `main` resolves at its start (init_db.py line 126). -/
def mainDbPath (w : World) : String := resolveDbPath w.cwd w.connFile

/-- The database section's outcome for this world. -/
def mainPhase (w : World) : PhaseOut :=
  dbPhase (dbFileAt w (mainDbPath w)) w.now w.connectFails w.commitFails

/-- The world right after the database section: the persisted database
lands in the file, except when the connect itself failed and no file
was created. -/
def mainW1 (w : World) : World :=
  if w.connectFails then w
  else { w with dbFiles := upsertA w.dbFiles (mainDbPath w) (mainPhase w).db }

/-- The events of the database section: the connection is opened and
closed (the `finally` block) unless the connect raised before `conn`
existed, and a failing section re-raises after the close. -/
def mainDbTrace (w : World) : List Ev :=
  if w.connectFails then [Ev.raiseDb]
  else [Ev.openC, Ev.closeC] ++ (if (mainPhase w).err.isSome then [Ev.raiseDb] else [])

/-- `main` (init_db.py lines 122-283): resolve the path, run the
database section, then (on success) the exporter section.  When the
connect fails no file is created and the `finally` block finds no
`conn` to close; otherwise the connection is opened and closed exactly
once and the persisted database lands in the world.  A database-phase
exception propagates out of `main` (exit status 1); so does a
`makedirs` failure in the exporter section (see `runMain` below). -/
def mainExp (w : World) : ExpOut :=
  exporterPhase (mainW1 w) (mainDbPath w) w.connWriteFails w.mkdirFails w.envWriteFails

def runMain (w : World) : MainResult :=
  match (mainPhase w).err with
  | some e =>
    { world := mainW1 w, exitCode := 1, dbError := some e, stats := (mainPhase w).stats,
      warnings := 0, trace := mainDbTrace w }
  | none =>
    { world := (mainExp w).world, exitCode := (mainExp w).exitCode, dbError := none,
      stats := (mainPhase w).stats, warnings := (mainExp w).warnings,
      trace := mainDbTrace w ++ (mainExp w).trace }

/-- SQL `=` comparison of two optional values (a missing column or a
NULL operand never compares equal). -/
def sqlEqB (a b : Option SqlVal) : Bool :=
  match a, b with
  | some x, some y => !(x == SqlVal.null) && !(y == SqlVal.null) && x == y
  | _, _ => false

/-- Apply an UPDATE's SET list to one row. -/
def applyAssigns (assigns : List (String × SqlVal)) (r : List (String × SqlVal)) :
    List (String × SqlVal) :=
  r.map (fun cv =>
    match assigns.lookup cv.1 with
    | some nv => (cv.1, nv)
    | none => cv)

/-- The body of the `notes_set_updated_at` trigger (init_db.py lines
114-116): `UPDATE notes SET updated_at = CURRENT_TIMESTAMP WHERE id =
NEW.id`, run over the table's rows with `NEW.id` passed in as `nid`. -/
def triggerBodyUpdate (rows : List (List (String × SqlVal))) (nid : Option SqlVal) (now : Nat) :
    List (List (String × SqlVal)) :=
  rows.map (fun r =>
    if sqlEqB (r.lookup "id") nid then applyAssigns [("updated_at", SqlVal.tsV now)] r else r)

/-- The row-level effect of the statement's SET list: rows whose `id`
matches the WHERE clause receive the assignments. -/
def userUpdatedRows (t : Table) (rid : Int) (assigns : List (String × SqlVal)) :
    List (List (String × SqlVal)) :=
  t.rows.map (fun r =>
    if sqlEqB (r.lookup "id") (some (SqlVal.intV rid)) then applyAssigns assigns r else r)

/-- The `NEW.id` values of the updated rows for which the trigger
fires: the trigger must exist and its WHEN clause
`NEW.updated_at = OLD.updated_at` (init_db.py line 112) must hold. -/
def firedIds (db : DB) (t : Table) (rid : Int) (assigns : List (String × SqlVal)) :
    List (Option SqlVal) :=
  t.rows.filterMap (fun r =>
    if sqlEqB (r.lookup "id") (some (SqlVal.intV rid)) then
      if db.triggers.contains trigName &&
          sqlEqB (r.lookup "updated_at") ((applyAssigns assigns r).lookup "updated_at") then
        some ((applyAssigns assigns r).lookup "id")
      else none
    else none)

/-- The new `notes` table content and trigger fire count for one
UPDATE statement: rows after the SET list, then the trigger body run
once per fired row. -/
def updateNotesResult (db : DB) (now : Nat) (rid : Int) (assigns : List (String × SqlVal))
    (t : Table) : DB × Nat :=
  ({ db with tables := upsertA db.tables "notes" ({ t with rows := (firedIds db t rid assigns).foldl (fun rs nid => triggerBodyUpdate rs nid now) (userUpdatedRows t rid assigns) }) }, (firedIds db t rid assigns).length)

/-- A client statement `UPDATE notes SET ... WHERE id = rid` executed
against the database, together with the trigger machinery the script
installed: after the row-level updates, the `notes_set_updated_at`
trigger (when present) fires once for each updated row whose
`NEW.updated_at = OLD.updated_at` (init_db.py line 112) and runs its
body; SQLite's `recursive_triggers` pragma is off by default, so the
body's own UPDATE does not re-fire the trigger.  Returns the new
database and the number of times the trigger fired. -/
def updateNotes (db : DB) (now : Nat) (rid : Int) (assigns : List (String × SqlVal)) :
    DB × Nat :=
  match db.tables.lookup "notes" with
  | none => (db, 0)
  | some t => updateNotesResult db now rid assigns t

/-- The schema of a database: table names with their column lists, and
the trigger names. -/
def dbSchema (db : DB) : List (String × List ColumnDef) × List String :=
  (db.tables.map (fun nt => (nt.1, nt.2.cols)), db.triggers)

/-- The (key, value) projection of one `app_info` row. -/
def rowKV (r : List (String × SqlVal)) : Option SqlVal × Option SqlVal :=
  (r.lookup "key", r.lookup "value")

/-- The (key, value) pairs of the `app_info` rows. -/
def appInfoKVs (db : DB) : List (Option SqlVal × Option SqlVal) :=
  match db.tables.lookup "app_info" with
  | some t => t.rows.map rowKV
  | none => []

theorem upsertA_lookup_self {α : Type} (l : List (String × α)) (k : String) (v : α) :
    (upsertA l k v).lookup k = some v := by
  induction l with
  | nil => simp [upsertA, List.lookup_cons]
  | cons hd tl ih =>
    obtain ⟨k', v'⟩ := hd
    by_cases h : k' = k
    · simp [upsertA, h, List.lookup_cons]
    · simp only [upsertA, if_neg h, List.lookup_cons]
      have : (k == k') = false := by
        simp only [beq_eq_false_iff_ne, ne_eq]
        exact fun hh => h hh.symm
      simp [this, ih]

theorem upsertA_lookup_ne {α : Type} (l : List (String × α)) (k k' : String) (v : α)
    (h : k' ≠ k) : (upsertA l k v).lookup k' = l.lookup k' := by
  induction l with
  | nil => simp [upsertA, List.lookup_cons, beq_eq_false_iff_ne.mpr h]
  | cons hd tl ih =>
    obtain ⟨ka, va⟩ := hd
    by_cases hk : ka = k
    · subst hk
      simp [upsertA, List.lookup_cons, beq_eq_false_iff_ne.mpr h]
    · simp only [upsertA, if_neg hk, List.lookup_cons]
      cases hkk : (k' == ka) <;> simp [ih]

theorem abspath_absolute (cwd p : String) (h : isAbsB p = true) :
    abspath cwd p = normpath p := by
  simp [abspath, h]

/-- The concrete starting state used by the fresh-directory scenario:
an empty working directory `/work`, no descriptor file, no database
file, no `db_visualizer` directory, and no injected faults. -/
def freshWorld : World :=
  { cwd := "/work", connFile := none, vizDirExists := false, envFile := none,
    dbFiles := [], now := 100, connectFails := false, commitFails := false,
    connWriteFails := false, mkdirFails := false, envWriteFails := false }

/-- C2: starting from a fresh empty working directory (no descriptor
file, no database file), the run creates the database file at the
resolved default path with exactly the 3 user tables `app_info`,
`users`, `notes` plus the 1 trigger; `app_info` holds exactly the 4
seed rows (project_name=database, version=0.1.0, author=John Doe,
description=empty); the connection descriptor file is written and its
`# File path:` line parses back to the created file's absolute path;
the `db_visualizer` directory and its environment file exist. -/
theorem claim_C2 :
    (runMain freshWorld).exitCode = 0 ∧
    ((runMain freshWorld).world.dbFiles.map (fun f => f.1)) = ["/work/myapp.db"] ∧
    (dbFileAt (runMain freshWorld).world "/work/myapp.db").tables.map (fun nt => nt.1) =
      ["app_info", "users", "notes"] ∧
    countUserTables (dbFileAt (runMain freshWorld).world "/work/myapp.db") = 3 ∧
    (dbFileAt (runMain freshWorld).world "/work/myapp.db").triggers = [trigName] ∧
    (runMain freshWorld).stats = some (3, 4) ∧
    appInfoKVs (dbFileAt (runMain freshWorld).world "/work/myapp.db") =
      [(some (SqlVal.textV "project_name"), some (SqlVal.textV "database")),
       (some (SqlVal.textV "version"), some (SqlVal.textV "0.1.0")),
       (some (SqlVal.textV "author"), some (SqlVal.textV "John Doe")),
       (some (SqlVal.textV "description"), some (SqlVal.textV ""))] ∧
    (runMain freshWorld).world.connFile = some (connDescriptorContent "/work/myapp.db") ∧
    parseDbPathFromConnectionFile (runMain freshWorld).world.connFile = some "/work/myapp.db" ∧
    (runMain freshWorld).world.vizDirExists = true ∧
    (runMain freshWorld).world.envFile = some "export SQLITE_DB=\"/work/myapp.db\"\n" := by
  decide

/-- A descriptor text whose `# File path:` line names `/tmp/x.db`. -/
def filePathScenario : String :=
  "# SQLite connection methods:\n# File path: /tmp/x.db\n"

/-- C5: when the descriptor file carries a `# File path: /tmp/x.db`
line the resolver returns `/tmp/x.db` — for every world, in particular
whatever database files (such as a default-named one) exist; when the
descriptor file is absent, or present but matching neither pattern,
the resolver returns the absolute form of the default filename
resolved against the working directory. -/
theorem claim_C5 :
    (∀ w : World, w.connFile = some filePathScenario →
      resolveDbPath w.cwd w.connFile = "/tmp/x.db") ∧
    (∀ w : World, w.connFile = none →
      resolveDbPath w.cwd w.connFile = abspath w.cwd DB_NAME) ∧
    (∀ w : World, ∀ c : String, w.connFile = some c → parseDbPathFromContent c = none →
      resolveDbPath w.cwd w.connFile = abspath w.cwd DB_NAME) := by
  refine ⟨?_, ?_, ?_⟩
  · intro w h
    have hp : parseDbPathFromConnectionFile (some filePathScenario) = some "/tmp/x.db" := by
      decide
    rw [resolveDbPath, h, hp]
    show (if ("/tmp/x.db" : String) = "" then abspath w.cwd DB_NAME
          else abspath w.cwd "/tmp/x.db") = "/tmp/x.db"
    rw [if_neg (by decide), abspath_absolute _ _ (by decide)]
    decide
  · intro w h
    rw [resolveDbPath, h]
    rfl
  · intro w c h hc
    rw [resolveDbPath, h]
    show (match parseDbPathFromContent c with
      | some p => if p = "" then abspath w.cwd DB_NAME else abspath w.cwd p
      | none => abspath w.cwd DB_NAME) = abspath w.cwd DB_NAME
    rw [hc]

/-- A world whose descriptor names `/tmp/x.db` while a default-named
database file also sits in the working directory. -/
def c5ScenarioWorld : World :=
  { freshWorld with connFile := some filePathScenario, dbFiles := [("/work/myapp.db", emptyDB)] }

theorem claim_C5_witness :
    resolveDbPath c5ScenarioWorld.cwd c5ScenarioWorld.connFile = "/tmp/x.db" ∧
    resolveDbPath freshWorld.cwd freshWorld.connFile = abspath freshWorld.cwd DB_NAME :=
  ⟨claim_C5.1 c5ScenarioWorld rfl, claim_C5.2.1 freshWorld rfl⟩

theorem searchAux_skipline (f : List Char → Option (List Char)) (pre rest : List Char)
    (h : ∀ c ∈ pre, ¬ c = '\n') :
    searchAux f false (pre ++ '\n' :: rest) = searchAux f true rest := by
  induction pre with
  | nil => simp [searchAux]
  | cons c cs ih =>
    have hc : (c == '\n') = false := by
      simp only [beq_eq_false_iff_ne, ne_eq]
      exact h c (by simp)
    simp only [List.cons_append, searchAux, hc]
    exact ih (fun x hx => h x (by simp [hx]))

theorem searchAux_true_skipline (f : List Char → Option (List Char)) (l1 rest : List Char)
    (hne : l1 ≠ []) (hall : ∀ x ∈ l1, ¬ x = '\n')
    (hf : f (l1 ++ '\n' :: rest) = none) :
    searchAux f true (l1 ++ '\n' :: rest) = searchAux f true rest := by
  cases l1 with
  | nil => exact absurd rfl hne
  | cons c cs =>
    have hc : (c == '\n') = false := by
      simp only [beq_eq_false_iff_ne, ne_eq]
      exact hall c (by simp)
    rw [List.cons_append] at hf ⊢
    simp only [searchAux, hf, hc]
    exact searchAux_skipline f cs rest (fun x hx => hall x (by simp [hx]))

theorem matchFilePathAt_none_tool (s tail : List Char)
    (hlen : 10 ≤ (s.dropWhile isPySpace).length)
    (hne : ¬ (s.dropWhile isPySpace).take 10 = filePathLit) :
    matchFilePathAt ('#' :: (s ++ tail)) = none := by
  have hdw : (s ++ tail).dropWhile isPySpace = s.dropWhile isPySpace ++ tail := by
    rw [List.dropWhile_append]
    have : (s.dropWhile isPySpace).isEmpty = false := by
      cases h : s.dropWhile isPySpace with
      | nil => rw [h] at hlen; simp at hlen
      | cons a l => simp [List.isEmpty]
    simp [this]
  have htake : ((s ++ tail).dropWhile isPySpace).take 10 = (s.dropWhile isPySpace).take 10 := by
    rw [hdw, List.take_append_of_le_length hlen]
  simp only [matchFilePathAt, if_pos rfl, htake]
  rw [if_neg hne]
  simp

/-- Success of the `File path:` pattern on the line the exporter
writes, for a path starting with "/" and containing no newline. -/
theorem matchFilePathAt_fileline (pl tail : List Char) (pr : List Char)
    (hpl : pl = '/' :: pr) (hall : ∀ x ∈ pl, ¬ x = '\n') :
    matchFilePathAt ("# File path: ".toList ++ (pl ++ '\n' :: tail)) = some pl := by
  have hsplit : "# File path: ".toList = '#' :: (" File path: ".toList) := by decide
  have hsplit2 : " File path: ".toList.dropWhile isPySpace = filePathLit ++ [' '] := by decide
  rw [hsplit, List.cons_append]
  have hdw : (" File path: ".toList ++ (pl ++ '\n' :: tail)).dropWhile isPySpace =
      filePathLit ++ ([' '] ++ (pl ++ '\n' :: tail)) := by
    rw [List.dropWhile_append, hsplit2]
    simp [List.append_assoc]
  have hlitlen : filePathLit.length = 10 := by decide
  have htake : (filePathLit ++ ([' '] ++ (pl ++ '\n' :: tail))).take 10 = filePathLit := by
    rw [← hlitlen]
    have h0 := (List.take_append 0 :
      (filePathLit ++ ([' '] ++ (pl ++ '\n' :: tail))).take (filePathLit.length + 0) =
        filePathLit ++ ([' '] ++ (pl ++ '\n' :: tail)).take 0)
    simpa using h0
  have hdrop : (filePathLit ++ ([' '] ++ (pl ++ '\n' :: tail))).drop 10 =
      [' '] ++ (pl ++ '\n' :: tail) := by
    rw [← hlitlen]
    have h0 := (List.drop_append 0 :
      (filePathLit ++ ([' '] ++ (pl ++ '\n' :: tail))).drop (filePathLit.length + 0) =
        ([' '] ++ (pl ++ '\n' :: tail)).drop 0)
    simpa using h0
  have hcap : capAfterWs ([' '] ++ (pl ++ '\n' :: tail)) = some pl := by
    rw [List.singleton_append]
    have hpr : (pr ++ '\n' :: tail).takeWhile (fun x => !(x == '\n')) = pr := by
      rw [List.takeWhile_append]
      have hprall : pr.takeWhile (fun x => !(x == '\n')) = pr := by
        rw [List.takeWhile_eq_self_iff]
        intro x hx
        simp only [Bool.not_eq_true']
        simp only [beq_eq_false_iff_ne, ne_eq]
        exact hall x (by simp [hpl, hx])
      rw [if_pos (by rw [hprall])]
      have hnl : List.takeWhile (fun x => !(x == '\n')) ('\n' :: tail) = [] := by
        simp [List.takeWhile_cons]
      rw [hnl, List.append_nil]
    have : capAfterWs (pl ++ '\n' :: tail) = some pl := by
      rw [hpl, List.cons_append]
      have habs : isPySpace '/' = false := by decide
      simp only [capAfterWs, habs, Bool.false_eq_true, if_false, hpr]
    simp only [capAfterWs]
    rw [if_pos (by decide), this]
  simp only [matchFilePathAt, if_pos rfl, hdw, htake, if_pos rfl, hdrop, hcap]
  simp

theorem searchAux_true_hit (f : List Char → Option (List Char)) (l r : List Char)
    (h : f l = some r) : searchAux f true l = some r := by
  cases l <;> simp [searchAux, h]

theorem basename_mem (p : String) (c : Char) (hc : c ∈ (basename p).toList) : c ∈ p.toList := by
  have hb : (basename p).toList = (p.toList.reverse.takeWhile (fun x => !(x == '/'))).reverse :=
    rfl
  rw [hb, List.mem_reverse] at hc
  have hsub := (List.takeWhile_sublist (fun x => !(x == '/')) : (p.toList.reverse.takeWhile (fun x => !(x == '/'))).Sublist p.toList.reverse)
  have := hsub.mem hc
  rwa [List.mem_reverse] at this

/-- The text written by the exporter, split at its line boundaries. -/
theorem descriptor_decomp (p : String) :
    (connDescriptorContent p).toList =
      "# SQLite connection methods:".toList ++ '\n' ::
      (("# Python: sqlite3.connect('".toList ++ (basename p).toList ++ "')".toList) ++ '\n' ::
      (("# Connection string: sqlite:///".toList ++ p.toList) ++ '\n' ::
      ("# File path: ".toList ++ (p.toList ++ '\n' :: ([] : List Char))))) := by
  have e1 : ("# SQLite connection methods:\n" : String).data =
      ("# SQLite connection methods:" : String).data ++ ['\n'] := by decide
  have e2 : ("')\n" : String).data = ("')" : String).data ++ ['\n'] := by decide
  have e3 : ("\n" : String).data = ['\n'] := by decide
  simp only [connDescriptorContent, String.toList, String.data_append, e1, e2, e3,
    List.append_assoc, List.singleton_append, List.cons_append, List.nil_append]

/-- The `File path:` search over the exporter's descriptor text finds
the fourth line and captures exactly the written path. -/
theorem searchPat_descriptor (p : String) (pr : List Char) (hpl : p.toList = '/' :: pr)
    (hn : ∀ c ∈ p.toList, ¬ c = '\n') :
    searchPat matchFilePathAt (connDescriptorContent p).toList = some p.toList := by
  rw [searchPat, descriptor_decomp p]
  have hf1 : matchFilePathAt ("# SQLite connection methods:".toList ++ '\n' ::
      (("# Python: sqlite3.connect('".toList ++ (basename p).toList ++ "')".toList) ++ '\n' ::
      (("# Connection string: sqlite:///".toList ++ p.toList) ++ '\n' ::
      ("# File path: ".toList ++ (p.toList ++ '\n' :: ([] : List Char)))))) = none := by
    have hsp : "# SQLite connection methods:".toList =
        '#' :: " SQLite connection methods:".toList := by decide
    rw [hsp, List.cons_append]
    exact matchFilePathAt_none_tool _ _ (by decide) (by decide)
  rw [searchAux_true_skipline _ _ _ (by decide) (by decide) hf1]
  have hf2 : matchFilePathAt
      (("# Python: sqlite3.connect('".toList ++ (basename p).toList ++ "')".toList) ++ '\n' ::
      (("# Connection string: sqlite:///".toList ++ p.toList) ++ '\n' ::
      ("# File path: ".toList ++ (p.toList ++ '\n' :: ([] : List Char))))) = none := by
    have hsp : "# Python: sqlite3.connect('".toList =
        '#' :: " Python: sqlite3.connect('".toList := by decide
    rw [hsp]
    simp only [List.cons_append, List.append_assoc]
    exact matchFilePathAt_none_tool _ _ (by decide) (by decide)
  have hall2 : ∀ x ∈ ("# Python: sqlite3.connect('".toList ++ (basename p).toList ++
      "')".toList), ¬ x = '\n' := by
    have hlitA : ∀ y ∈ "# Python: sqlite3.connect('".toList, ¬ y = '\n' := by decide
    have hlitB : ∀ y ∈ "')".toList, ¬ y = '\n' := by decide
    intro x hx
    rcases List.mem_append.mp hx with hx2 | hx2
    · rcases List.mem_append.mp hx2 with hx3 | hx3
      · exact hlitA x hx3
      · exact hn x (basename_mem p x hx3)
    · exact hlitB x hx2
  rw [searchAux_true_skipline _ _ _ (by simp) hall2 hf2]
  have hf3 : matchFilePathAt
      (("# Connection string: sqlite:///".toList ++ p.toList) ++ '\n' ::
      ("# File path: ".toList ++ (p.toList ++ '\n' :: ([] : List Char)))) = none := by
    have hsp : "# Connection string: sqlite:///".toList =
        '#' :: " Connection string: sqlite:///".toList := by decide
    rw [hsp]
    simp only [List.cons_append, List.append_assoc]
    exact matchFilePathAt_none_tool _ _ (by decide) (by decide)
  have hall3 : ∀ x ∈ ("# Connection string: sqlite:///".toList ++ p.toList), ¬ x = '\n' := by
    have hlitC : ∀ y ∈ "# Connection string: sqlite:///".toList, ¬ y = '\n' := by decide
    intro x hx
    rcases List.mem_append.mp hx with hx2 | hx2
    · exact hlitC x hx2
    · exact hn x hx2
  rw [searchAux_true_skipline _ _ _ (by simp) hall3 hf3]
  exact searchAux_true_hit _ _ _ (matchFilePathAt_fileline p.toList [] pr hpl hn)

/-- Parsing the descriptor the exporter wrote for `p` recovers `p`
itself, for an absolute newline-free strip-stable `p`. -/
theorem parse_descriptor (p : String) (pr : List Char) (hpl : p.toList = '/' :: pr)
    (hn : ∀ c ∈ p.toList, ¬ c = '\n') (hs : stripL p.toList = p.toList) :
    parseDbPathFromContent (connDescriptorContent p) = some p := by
  have hsearch := searchPat_descriptor p pr hpl hn
  simp only [parseDbPathFromContent, hsearch]
  show (if stripL p.toList = [] then parseConnStringFallback (connDescriptorContent p)
        else some (String.mk (stripL p.toList))) = some p
  rw [hs, hpl]
  rw [if_neg (by simp)]
  rw [← hpl]
  rfl

/-- Writing the connection descriptor for `p` (as the exporter does at
init_db.py lines 233-237) and resolving the database path from the
written file (init_db.py lines 24-58). -/
def writeThenResolve (cwd p : String) : String :=
  resolveDbPath cwd (some (connDescriptorContent p))

/-- C6 counterexample: `/a‹newline›b.db` is an absolute path, yet
writing the descriptor for it and resolving again yields `/a` (the
regex capture stops at the newline), not the original path.  So the
round trip is not the identity for every absolute path. -/
theorem claim_C6_counterexample :
    isAbsB "/a\nb.db" = true ∧
    writeThenResolve "/work" "/a\nb.db" = "/a" ∧
    ¬ writeThenResolve "/work" "/a\nb.db" = "/a\nb.db" := by
  decide

/-- C6 (amended): for every absolute database path that contains no
newline, is unchanged by whitespace stripping, and is `normpath`-fixed
— which is every path the script itself produces by `os.path.abspath`,
except the degenerate trailing-whitespace cases the counterexample
family exhibits — writing the connection descriptor file for that path
and then running the path resolver against the written file yields the
same path back. -/
theorem claim_C6_amended (cwd p : String) (habs : isAbsB p = true)
    (hn : ∀ c ∈ p.toList, ¬ c = '\n') (hs : stripL p.toList = p.toList)
    (hnorm : normpath p = p) :
    writeThenResolve cwd p = p := by
  obtain ⟨pr, hpl⟩ : ∃ pr, p.toList = '/' :: pr := by
    cases hp : p.toList with
    | nil => rw [isAbsB, hp] at habs; exact absurd habs (by decide)
    | cons c cs =>
      rw [isAbsB, hp] at habs
      simp only [beq_iff_eq] at habs
      exact ⟨cs, by rw [habs]⟩
  have hparse : parseDbPathFromConnectionFile (some (connDescriptorContent p)) = some p :=
    parse_descriptor p pr hpl hn hs
  rw [writeThenResolve, resolveDbPath, hparse]
  show (if p = "" then abspath cwd DB_NAME else abspath cwd p) = p
  have hpne : ¬ p = "" := by
    intro h
    rw [h] at hpl
    simp at hpl
  rw [if_neg hpne, abspath_absolute cwd p habs, hnorm]

/-- Witness for the amended C6 at a concrete path and working
directory. -/
theorem claim_C6_amended_witness :
    writeThenResolve "/work" "/data/notes.db" = "/data/notes.db" :=
  claim_C6_amended "/work" "/data/notes.db" (by decide) (by decide) (by decide) (by decide)

/-- `t'` extends `t` additively: the old columns are an unchanged
prefix of the new ones, and every old row keeps its values, extended
only by the added columns' constant defaults. -/
def TableExtends (t t' : Table) : Prop :=
  ∃ ext : List ColumnDef,
    t'.cols = t.cols ++ ext ∧
    t'.rows = t.rows.map (fun r => r ++ ext.map (fun c => (c.name, defaultVal c.dflt 0)))

/-- Every table of `d` is still present in `d'` and additively
extended: no table dropped, no column removed or altered, no row data
modified. -/
def DBExtends (d d' : DB) : Prop :=
  ∀ n t, d.tables.lookup n = some t → ∃ t', d'.tables.lookup n = some t' ∧ TableExtends t t'

theorem tableExtends_refl (t : Table) : TableExtends t t := by
  refine ⟨[], by simp, by simp⟩

theorem tableExtends_trans {t1 t2 t3 : Table} (h1 : TableExtends t1 t2)
    (h2 : TableExtends t2 t3) : TableExtends t1 t3 := by
  obtain ⟨e1, hc1, hr1⟩ := h1
  obtain ⟨e2, hc2, hr2⟩ := h2
  refine ⟨e1 ++ e2, by rw [hc2, hc1, List.append_assoc], ?_⟩
  rw [hr2, hr1, List.map_map]
  simp [List.map_append, List.append_assoc, Function.comp]

theorem dbExtends_refl (d : DB) : DBExtends d d :=
  fun n t h => ⟨t, h, tableExtends_refl t⟩

theorem dbExtends_trans {d1 d2 d3 : DB} (h1 : DBExtends d1 d2) (h2 : DBExtends d2 d3) :
    DBExtends d1 d3 := by
  intro n t h
  obtain ⟨t2, hl2, he2⟩ := h1 n t h
  obtain ⟨t3, hl3, he3⟩ := h2 n t2 hl2
  exact ⟨t3, hl3, tableExtends_trans he2 he3⟩

theorem createTableIfNotExists_extends (d : DB) (n : String) (cols : List ColumnDef) :
    DBExtends d (createTableIfNotExists d n cols) := by
  rw [createTableIfNotExists]
  by_cases h : tableExists d n
  · rw [if_pos h]; exact dbExtends_refl d
  · rw [if_neg h]
    intro n' t hl
    refine ⟨t, ?_, tableExtends_refl t⟩
    show ((d.tables ++ [(n, _)]).lookup n') = some t
    rw [List.lookup_append, hl]
    rfl

theorem alterAddColumn_extends (d : DB) (n : String) (c : ColumnDef) (d' : DB)
    (h : alterAddColumn d n c = Except.ok d') : DBExtends d d' := by
  cases hl : d.tables.lookup n with
  | none => simp [alterAddColumn, hl] at h
  | some t =>
    simp only [alterAddColumn, hl] at h
    by_cases hcur : (c.dflt == ColDefault.currentTs) = true
    · rw [if_pos hcur] at h; exact absurd h (by simp)
    · rw [if_neg hcur] at h
      by_cases hnn : (c.notnull && c.dflt == ColDefault.noneD) = true
      · rw [if_pos hnn] at h; exact absurd h (by simp)
      · rw [if_neg hnn] at h
        simp only [Except.ok.injEq] at h
        subst h
        intro n' t' hl'
        by_cases hn' : n' = n
        · subst hn'
          rw [hl'] at hl
          injection hl with hl
          subst hl
          exact ⟨_, upsertA_lookup_self _ _ _, ⟨[c], rfl, rfl⟩⟩
        · exact ⟨t', by rw [upsertA_lookup_ne _ _ _ _ hn']; exact hl', tableExtends_refl t'⟩

theorem addCols_extends (n : String) (existing : List String) :
    ∀ (req : List ColumnDef) (d : DB), DBExtends d (addCols d n existing req).1 := by
  intro req
  induction req with
  | nil => intro d; exact dbExtends_refl d
  | cons c rest ih =>
    intro d
    rw [addCols]
    by_cases hc : existing.contains c.name
    · rw [if_pos hc]; exact ih d
    · rw [if_neg hc]
      cases ha : alterAddColumn d n c with
      | ok d2 => exact dbExtends_trans (alterAddColumn_extends d n c d2 ha) (ih d2)
      | error e => exact dbExtends_refl d

theorem ensureTable_extends (d : DB) (n : String) (cc req : List ColumnDef) :
    DBExtends d (ensureTable d n cc req).1 := by
  rw [ensureTable]
  exact dbExtends_trans (createTableIfNotExists_extends d n cc) (addCols_extends n _ req _)

theorem ensureTrigger_extends (d : DB) : DBExtends d (ensureNotesUpdatedAtTrigger d) := by
  rw [ensureNotesUpdatedAtTrigger]
  by_cases h : d.triggers.contains trigName
  · rw [if_pos h]; exact dbExtends_refl d
  · rw [if_neg h]; intro n t hl; exact ⟨t, hl, tableExtends_refl t⟩

theorem ensureAllTables_extends (d : DB) : DBExtends d (ensureAllTables d).1 := by
  rw [ensureAllTables]
  split
  next d1 e h1 =>
    have := ensureTable_extends d "app_info" appInfoCols []
    rwa [h1] at this
  next d1 h1 =>
    have he1 : DBExtends d d1 := by
      have := ensureTable_extends d "app_info" appInfoCols []
      rwa [h1] at this
    split
    next d2 e h2 =>
      have he2 : DBExtends d1 d2 := by
        have := ensureTable_extends d1 "users" usersCols []
        rwa [h2] at this
      exact dbExtends_trans he1 he2
    next d2 h2 =>
      have he2 : DBExtends d1 d2 := by
        have := ensureTable_extends d1 "users" usersCols []
        rwa [h2] at this
      split
      next d3 e h3 =>
        have he3 : DBExtends d2 d3 := by
          have := ensureTable_extends d2 "notes" notesCols notesReqCols
          rwa [h3] at this
        exact dbExtends_trans (dbExtends_trans he1 he2) he3
      next d3 h3 =>
        have he3 : DBExtends d2 d3 := by
          have := ensureTable_extends d2 "notes" notesCols notesReqCols
          rwa [h3] at this
        exact dbExtends_trans (dbExtends_trans (dbExtends_trans he1 he2) he3) (ensureTrigger_extends d3)

theorem seedStep_shape (d : DB) (now : Nat) (k v : String) :
    (seedStep d now k v).1 = d ∨
    ∃ t2 : Table, (seedStep d now k v).1 =
      { d with tables := upsertA d.tables "app_info" t2 } := by
  rw [seedStep]
  split
  · exact Or.inl rfl
  · split
    · split
      · exact Or.inl rfl
      · exact Or.inr ⟨_, rfl⟩
    · exact Or.inl rfl

theorem seedStep_lookup_other (d : DB) (now : Nat) (k v : String) (n : String)
    (hn : ¬ n = "app_info") :
    (seedStep d now k v).1.tables.lookup n = d.tables.lookup n := by
  rcases seedStep_shape d now k v with h | ⟨t2, h⟩
  · rw [h]
  · rw [h]
    exact upsertA_lookup_ne _ _ _ _ hn

theorem seedStep_triggers (d : DB) (now : Nat) (k v : String) :
    (seedStep d now k v).1.triggers = d.triggers := by
  rcases seedStep_shape d now k v with h | ⟨t2, h⟩ <;> rw [h]

theorem seedList_lookup_other (now : Nat) (pairs : List (String × String)) :
    ∀ (d : DB) (n : String), ¬ n = "app_info" →
      (seedList d now pairs).1.tables.lookup n = d.tables.lookup n := by
  induction pairs with
  | nil => intro d n _; rfl
  | cons kv rest ih =>
    intro d n hn
    rw [seedList]
    split
    next d1 e h1 =>
      have := seedStep_lookup_other d now kv.1 kv.2 n hn
      rwa [h1] at this
    next d1 h1 =>
      have hstep := seedStep_lookup_other d now kv.1 kv.2 n hn
      rw [h1] at hstep
      rw [ih d1 n hn, hstep]

/-- C7: the Schema Ensurer is additive only.  Part one: for every
pre-existing database state, every table present before the ensure
stage is still present afterwards, with its original columns an
unchanged prefix of the new ones and every original row's data intact
(only extended by added columns' defaults) — so no table is dropped,
no column removed or altered, and no existing row data modified.
Part two: across the whole database phase of a run, a pre-existing
`notes` table (for example one pre-populated with extra unrelated
columns and data) survives additively extended, since the seeder only
rewrites `app_info`. -/
theorem claim_C7 :
    (∀ db : DB, DBExtends db (ensureAllTables db).1) ∧
    (∀ (db : DB) (now : Nat) (t : Table), db.tables.lookup "notes" = some t →
      ∃ t', (dbPhase db now false false).db.tables.lookup "notes" = some t' ∧
        TableExtends t t') := by
  refine ⟨ensureAllTables_extends, ?_⟩
  intro db now t ht
  rw [dbPhase, if_neg (by simp)]
  split
  next d1 e h1 =>
    have he := ensureAllTables_extends db
    rw [h1] at he
    exact he "notes" t ht
  next d1 h1 =>
    have he : DBExtends db d1 := by
      have := ensureAllTables_extends db
      rwa [h1] at this
    split
    next d2 e h2 => exact he "notes" t ht
    next d2 h2 =>
      rw [if_neg (by simp)]
      obtain ⟨t', hl', he'⟩ := he "notes" t ht
      have hseed := seedList_lookup_other now seedPairs d1 "notes" (by decide)
      rw [seedAll] at h2
      rw [h2] at hseed
      exact ⟨t', by rw [hseed]; exact hl', he'⟩

/-- An extra user column on a pre-existing `notes` table, for the C7
witness. -/
def extraCol : ColumnDef :=
  { name := "extra", type := "TEXT", notnull := false, dflt := ColDefault.noneD,
    rowidAlias := false, uniq := false }

/-- A pre-existing `notes` table carrying the required columns plus an
unrelated extra column with data. -/
def extraNotesTable : Table :=
  { cols := notesCols ++ [extraCol],
    rows := [[("id", SqlVal.intV 1), ("title", SqlVal.textV "t1"),
              ("content", SqlVal.textV "c1"), ("created_at", SqlVal.tsV 5),
              ("updated_at", SqlVal.tsV 5), ("extra", SqlVal.textV "keep")]],
    seq := 1 }

def c7Db : DB := { tables := [("notes", extraNotesTable)], triggers := [] }

theorem claim_C7_witness :
    (∃ t', (ensureAllTables c7Db).1.tables.lookup "notes" = some t' ∧
      TableExtends extraNotesTable t') ∧
    (∃ t', (dbPhase c7Db 9 false false).db.tables.lookup "notes" = some t' ∧
      TableExtends extraNotesTable t') :=
  ⟨claim_C7.1 c7Db "notes" extraNotesTable (by decide),
   claim_C7.2 c7Db 9 extraNotesTable (by decide)⟩

theorem map_eq_self_of_fix {α : Type} (l : List α) (f : α → α) (h : ∀ x ∈ l, f x = x) :
    l.map f = l := by
  induction l with
  | nil => rfl
  | cons c cs ih =>
    rw [List.map_cons, h c (by simp), ih (fun x hx => h x (by simp [hx]))]

theorem filterMap_eq_nil_of_none {α β : Type} (l : List α) (g : α → Option β)
    (h : ∀ x ∈ l, g x = none) : l.filterMap g = [] := by
  induction l with
  | nil => rfl
  | cons c cs ih =>
    rw [List.filterMap_cons, h c (by simp), ih (fun x hx => h x (by simp [hx]))]

theorem lookup_applyAssigns (a : List (String × SqlVal)) (r : List (String × SqlVal))
    (x : String) :
    (applyAssigns a r).lookup x =
      (r.lookup x).map (fun v =>
        match a.lookup x with
        | some nv => nv
        | none => v) := by
  induction r with
  | nil => rfl
  | cons cv rest ih =>
    obtain ⟨c, v⟩ := cv
    rw [applyAssigns, List.map_cons]
    cases ha : a.lookup c with
    | some nv =>
      show List.lookup x ((c, nv) :: applyAssigns a rest) = _
      rw [List.lookup_cons, List.lookup_cons]
      cases hx : (x == c)
      · simp only []
        exact ih
      · simp only []
        have : x = c := by simpa using hx
        subst this
        rw [ha]
        rfl
    | none =>
      show List.lookup x ((c, v) :: applyAssigns a rest) = _
      rw [List.lookup_cons, List.lookup_cons]
      cases hx : (x == c)
      · simp only []
        exact ih
      · simp only []
        have : x = c := by simpa using hx
        subst this
        rw [ha]
        rfl

theorem sqlEqB_eq {a b : Option SqlVal} (h : sqlEqB a b = true) : a = b := by
  cases a with
  | none => cases b <;> simp [sqlEqB] at h
  | some x =>
    cases b with
    | none => simp [sqlEqB] at h
    | some y =>
      simp only [sqlEqB, Bool.and_eq_true, beq_iff_eq] at h
      rw [h.2]

theorem sqlEqB_some_self {x : SqlVal} (h : ¬ x = SqlVal.null) :
    sqlEqB (some x) (some x) = true := by
  simp [sqlEqB, h]

/-- C10: the trigger's body UPDATE (`... WHERE id = NEW.id`) touches
only the row whose `id` equals the updated row's `NEW.id`: the row
count is unchanged and every row at a position whose `id` does not
match is returned exactly as it was — all its columns, `updated_at`
included. -/
theorem claim_C10 (rows : List (List (String × SqlVal))) (nid : Option SqlVal) (now : Nat) :
    (triggerBodyUpdate rows nid now).length = rows.length ∧
    (∀ (i : Nat) (r : List (String × SqlVal)), rows[i]? = some r →
      sqlEqB (r.lookup "id") nid = false →
      (triggerBodyUpdate rows nid now)[i]? = some r) := by
  constructor
  · simp [triggerBodyUpdate]
  · intro i r hr hne
    rw [triggerBodyUpdate, List.getElem?_map, hr, Option.map_some']
    rw [if_neg (by simp [hne])]

/-- Witness for C10: a two-row `notes` table where the trigger body for
`NEW.id = 1` leaves row number two (id 2) untouched. -/
theorem claim_C10_witness :
    (triggerBodyUpdate
      [[("id", SqlVal.intV 1), ("updated_at", SqlVal.tsV 3)],
       [("id", SqlVal.intV 2), ("updated_at", SqlVal.tsV 4)]]
      (some (SqlVal.intV 1)) 9).length = 2 ∧
    (triggerBodyUpdate
      [[("id", SqlVal.intV 1), ("updated_at", SqlVal.tsV 3)],
       [("id", SqlVal.intV 2), ("updated_at", SqlVal.tsV 4)]]
      (some (SqlVal.intV 1)) 9)[1]? =
      some [("id", SqlVal.intV 2), ("updated_at", SqlVal.tsV 4)] :=
  ⟨(claim_C10 _ _ 9).1,
   (claim_C10 _ _ 9).2 1 [("id", SqlVal.intV 2), ("updated_at", SqlVal.tsV 4)]
     (by decide) (by decide)⟩

theorem lookup_applyAssigns_miss (a r : List (String × SqlVal)) (x : String)
    (ha : a.lookup x = none) : (applyAssigns a r).lookup x = r.lookup x := by
  rw [lookup_applyAssigns, ha]
  cases r.lookup x <;> rfl

theorem lookup_applyAssigns_hit (a r : List (String × SqlVal)) (x : String) (nv w : SqlVal)
    (ha : a.lookup x = some nv) (hr : r.lookup x = some w) :
    (applyAssigns a r).lookup x = some nv := by
  rw [lookup_applyAssigns, ha, hr]
  rfl


theorem updateNotes_some (db : DB) (now : Nat) (rid : Int)
    (assigns : List (String × SqlVal)) (t : Table)
    (hdb : db.tables.lookup "notes" = some t) :
    updateNotes db now rid assigns = updateNotesResult db now rid assigns t := by
  simp only [updateNotes, hdb]

/-- C3.  Part one: for a `notes` row singled out by its `id`, an
UPDATE that sets `title` and does not touch `updated_at` makes the
installed trigger fire exactly once and set that row's `updated_at` to
the current time, which is strictly later than the row's previous
`updated_at` value (`t0 < now`: the clock has advanced since the row
was last stamped).  Part two: any single UPDATE statement whose WHERE
clause matches one row — in particular one that explicitly sets
`updated_at` to the value it already had — makes the trigger fire at
most once: there is no retriggering loop (the trigger's own UPDATE is
not re-entered, `recursive_triggers` being off). -/
theorem claim_C3 :
    (∀ (db : DB) (now : Nat) (rid : Int) (t : Table)
       (pre post : List (List (String × SqlVal))) (r : List (String × SqlVal))
       (s : String) (t0 : Nat),
      db.tables.lookup "notes" = some t →
      db.triggers.contains trigName = true →
      t.rows = pre ++ r :: post →
      sqlEqB (r.lookup "id") (some (SqlVal.intV rid)) = true →
      (∀ r2 ∈ pre ++ post, sqlEqB (r2.lookup "id") (some (SqlVal.intV rid)) = false) →
      r.lookup "updated_at" = some (SqlVal.tsV t0) →
      t0 < now →
      ∃ r2 : List (String × SqlVal),
        (updateNotes db now rid [("title", SqlVal.textV s)]).1.tables.lookup "notes" =
          some ({ t with rows := pre ++ r2 :: post }) ∧
        r2.lookup "updated_at" = some (SqlVal.tsV now) ∧
        t0 < now ∧
        (updateNotes db now rid [("title", SqlVal.textV s)]).2 = 1) ∧
    (∀ (db : DB) (now : Nat) (rid : Int) (t : Table)
       (pre post : List (List (String × SqlVal))) (r : List (String × SqlVal))
       (assigns : List (String × SqlVal)),
      db.tables.lookup "notes" = some t →
      t.rows = pre ++ r :: post →
      (∀ r2 ∈ pre ++ post, sqlEqB (r2.lookup "id") (some (SqlVal.intV rid)) = false) →
      (updateNotes db now rid assigns).2 ≤ 1) := by
  constructor
  · intro db now rid t pre post r s t0 hdb htr hrows hmatch hothers hup hlt
    have hpre : ∀ r2 ∈ pre, sqlEqB (r2.lookup "id") (some (SqlVal.intV rid)) = false :=
      fun r2 h2 => hothers r2 (List.mem_append.mpr (Or.inl h2))
    have hpost : ∀ r2 ∈ post, sqlEqB (r2.lookup "id") (some (SqlVal.intV rid)) = false :=
      fun r2 h2 => hothers r2 (List.mem_append.mpr (Or.inr h2))
    have hrid : r.lookup "id" = some (SqlVal.intV rid) := sqlEqB_eq hmatch
    have hamiss : ([("title", SqlVal.textV s)] : List (String × SqlVal)).lookup "updated_at"
        = none := rfl
    have haid : ([("title", SqlVal.textV s)] : List (String × SqlVal)).lookup "id"
        = none := rfl
    have hNup : (applyAssigns [("title", SqlVal.textV s)] r).lookup "updated_at" =
        some (SqlVal.tsV t0) := by
      rw [lookup_applyAssigns_miss _ _ _ hamiss, hup]
    have hNid : (applyAssigns [("title", SqlVal.textV s)] r).lookup "id" =
        some (SqlVal.intV rid) := by
      rw [lookup_applyAssigns_miss _ _ _ haid, hrid]
    have hur : userUpdatedRows t rid [("title", SqlVal.textV s)] =
        pre ++ applyAssigns [("title", SqlVal.textV s)] r :: post := by
      rw [userUpdatedRows, hrows, List.map_append, List.map_cons]
      rw [map_eq_self_of_fix pre _ (fun x hx => by rw [if_neg (by simp [hpre x hx])])]
      rw [map_eq_self_of_fix post _ (fun x hx => by rw [if_neg (by simp [hpost x hx])])]
      rw [if_pos hmatch]
    have hcond : (db.triggers.contains trigName && sqlEqB (r.lookup "updated_at")
        ((applyAssigns [("title", SqlVal.textV s)] r).lookup "updated_at")) = true := by
      rw [htr, hup, hNup, sqlEqB_some_self (by simp)]
      rfl
    have hfi : firedIds db t rid [("title", SqlVal.textV s)] = [some (SqlVal.intV rid)] := by
      rw [firedIds, hrows, List.filterMap_append, List.filterMap_cons]
      rw [filterMap_eq_nil_of_none pre _ (fun x hx => by rw [if_neg (by simp [hpre x hx])])]
      rw [filterMap_eq_nil_of_none post _ (fun x hx => by rw [if_neg (by simp [hpost x hx])])]
      simp only [hmatch, hcond, if_true, List.nil_append, List.append_nil, hNid]
    have hvalid : sqlEqB (some (SqlVal.intV rid)) (some (SqlVal.intV rid)) = true :=
      sqlEqB_some_self (by simp)
    have htb : triggerBodyUpdate
        (pre ++ applyAssigns [("title", SqlVal.textV s)] r :: post)
        (some (SqlVal.intV rid)) now =
        pre ++ applyAssigns [("updated_at", SqlVal.tsV now)]
          (applyAssigns [("title", SqlVal.textV s)] r) :: post := by
      rw [triggerBodyUpdate, List.map_append, List.map_cons]
      rw [map_eq_self_of_fix pre _ (fun x hx => by rw [if_neg (by simp [hpre x hx])])]
      rw [map_eq_self_of_fix post _ (fun x hx => by rw [if_neg (by simp [hpost x hx])])]
      rw [hNid, hvalid]
      simp
    refine ⟨applyAssigns [("updated_at", SqlVal.tsV now)]
      (applyAssigns [("title", SqlVal.textV s)] r), ?_, ?_, hlt, ?_⟩
    · rw [updateNotes_some db now rid _ t hdb]
      show (upsertA db.tables "notes" _).lookup "notes" = _
      rw [upsertA_lookup_self, hfi, hur]
      rw [List.foldl_cons, List.foldl_nil, htb]
    · exact lookup_applyAssigns_hit _ _ _ (SqlVal.tsV now) (SqlVal.tsV t0) rfl hNup
    · rw [updateNotes_some db now rid _ t hdb]
      show (firedIds db t rid [("title", SqlVal.textV s)]).length = 1
      rw [hfi]
      rfl
  · intro db now rid t pre post r assigns hdb hrows hothers
    have hpre : ∀ r2 ∈ pre, sqlEqB (r2.lookup "id") (some (SqlVal.intV rid)) = false :=
      fun r2 h2 => hothers r2 (List.mem_append.mpr (Or.inl h2))
    have hpost : ∀ r2 ∈ post, sqlEqB (r2.lookup "id") (some (SqlVal.intV rid)) = false :=
      fun r2 h2 => hothers r2 (List.mem_append.mpr (Or.inr h2))
    rw [updateNotes_some db now rid assigns t hdb]
    show (firedIds db t rid assigns).length ≤ 1
    rw [firedIds, hrows, List.filterMap_append, List.filterMap_cons]
    rw [filterMap_eq_nil_of_none pre _ (fun x hx => by rw [if_neg (by simp [hpre x hx])])]
    rw [filterMap_eq_nil_of_none post _ (fun x hx => by rw [if_neg (by simp [hpost x hx])])]
    cases hmid : (if sqlEqB (r.lookup "id") (some (SqlVal.intV rid)) then
        (if db.triggers.contains trigName &&
            sqlEqB (r.lookup "updated_at")
              ((applyAssigns assigns r).lookup "updated_at") then
          some ((applyAssigns assigns r).lookup "id")
        else none)
      else none) with
    | none => simp [hmid]
    | some b => simp [hmid]

def c3Row1 : List (String × SqlVal) :=
  [("id", SqlVal.intV 1), ("title", SqlVal.textV "a"), ("content", SqlVal.textV "x"),
   ("created_at", SqlVal.tsV 2), ("updated_at", SqlVal.tsV 2)]

def c3Row2 : List (String × SqlVal) :=
  [("id", SqlVal.intV 2), ("title", SqlVal.textV "b"), ("content", SqlVal.textV "y"),
   ("created_at", SqlVal.tsV 3), ("updated_at", SqlVal.tsV 3)]

def c3NotesTable : Table := { cols := notesCols, rows := [c3Row1, c3Row2], seq := 2 }

/-- A database with a two-row `notes` table and the trigger installed,
as a run of the script leaves behind. -/
def c3Db : DB := { tables := [("notes", c3NotesTable)], triggers := [trigName] }

theorem claim_C3_witness :
    (∃ r2 : List (String × SqlVal),
      (updateNotes c3Db 7 1 [("title", SqlVal.textV "new")]).1.tables.lookup "notes" =
        some ({ c3NotesTable with rows := [] ++ r2 :: [c3Row2] }) ∧
      r2.lookup "updated_at" = some (SqlVal.tsV 7) ∧
      2 < 7 ∧
      (updateNotes c3Db 7 1 [("title", SqlVal.textV "new")]).2 = 1) ∧
    (updateNotes c3Db 7 1 [("updated_at", SqlVal.tsV 2)]).2 ≤ 1 :=
  ⟨claim_C3.1 c3Db 7 1 c3NotesTable [] [c3Row2] c3Row1 "new" 2 (by decide) (by decide)
      (by decide) (by decide) (by decide) (by decide) (by decide),
   claim_C3.2 c3Db 7 1 c3NotesTable [] [c3Row2] c3Row1 [("updated_at", SqlVal.tsV 2)]
      (by decide) (by decide) (by decide)⟩

theorem mainW1_vizDir (w : World) : (mainW1 w).vizDirExists = w.vizDirExists := by
  rw [mainW1]
  split <;> rfl

theorem runMain_err_case (w : World) (e : String) (he : (mainPhase w).err = some e) :
    runMain w =
      { world := mainW1 w, exitCode := 1, dbError := some e,
        stats := (mainPhase w).stats, warnings := 0, trace := mainDbTrace w } := by
  simp only [runMain, he]

theorem runMain_ok_case (w : World) (he : (mainPhase w).err = none) :
    runMain w =
      { world := (mainExp w).world, exitCode := (mainExp w).exitCode,
        dbError := none, stats := (mainPhase w).stats, warnings := (mainExp w).warnings,
        trace := mainDbTrace w ++ (mainExp w).trace } := by
  simp only [runMain, he]

theorem runMain_dbError (w : World) : (runMain w).dbError = (mainPhase w).err := by
  cases he : (mainPhase w).err with
  | some e => rw [runMain_err_case w e he]
  | none => rw [runMain_ok_case w he]

theorem dbPhase_connectFails_err (db0 : DB) (now : Nat) (cm : Bool) :
    (dbPhase db0 now true cm).err = some "unable to open database file" := by
  rw [dbPhase]
  simp

theorem exporterPhase_spec (w1 : World) (p : String) (cwf mdf ewf : Bool)
    (hmk : w1.vizDirExists = true ∨ mdf = false) :
    (exporterPhase w1 p cwf mdf ewf).exitCode = 0 ∧
    (exporterPhase w1 p cwf mdf ewf).warnings =
      ((if cwf then 1 else 0) + (if ewf then 1 else 0)) ∧
    (cwf = true → Ev.warnConn ∈ (exporterPhase w1 p cwf mdf ewf).trace) ∧
    (ewf = true → Ev.warnEnv ∈ (exporterPhase w1 p cwf mdf ewf).trace) ∧
    (exporterPhase w1 p cwf mdf ewf).world.vizDirExists = true := by
  rcases hmk with hv | hm
  · cases cwf <;> cases ewf <;> simp [exporterPhase, hv]
  · subst hm
    cases cwf <;> cases ewf <;> cases hv : w1.vizDirExists <;> simp [exporterPhase, hv]

theorem exporterPhase_no_conn_events (w1 : World) (p : String) (cwf mdf ewf : Bool) :
    Ev.openC ∉ (exporterPhase w1 p cwf mdf ewf).trace ∧
    Ev.closeC ∉ (exporterPhase w1 p cwf mdf ewf).trace := by
  cases cwf <;> cases mdf <;> cases ewf <;> cases hv : w1.vizDirExists <;>
    simp [exporterPhase, hv]

/-- The world in which the `db_visualizer` directory is missing and
its creation fails, everything else being healthy. -/
def c8World : World := { freshWorld with mkdirFails := true }

/-- C8 counterexample: a failure of `os.makedirs("db_visualizer")` —
part of preparing the environment file's companion directory — is NOT
caught (init_db.py line 244 sits outside every try block): the run
aborts with a non-zero status even though the database phase
succeeded, contradicting the claim that such failures are always
downgraded to warnings. -/
theorem claim_C8_counterexample :
    (runMain c8World).dbError = none ∧
    c8World.mkdirFails = true ∧
    (runMain c8World).exitCode = 1 ∧
    Ev.raiseMkdir ∈ (runMain c8World).trace := by
  decide

/-- C8 (amended): a failure while writing the connection descriptor
file or the environment file itself is caught and reported as a
warning, and the run still exits with a success status; but this does
not extend to preparing the companion directory — the amendment
assumes the `db_visualizer` directory either already exists or its
creation succeeds, since an `os.makedirs` failure there propagates and
aborts the run (see the counterexample). -/
theorem claim_C8_amended (w : World)
    (hdb : (runMain w).dbError = none)
    (hmk : w.vizDirExists = true ∨ w.mkdirFails = false) :
    (runMain w).exitCode = 0 ∧
    (runMain w).warnings =
      ((if w.connWriteFails then 1 else 0) + (if w.envWriteFails then 1 else 0)) ∧
    (w.connWriteFails = true → Ev.warnConn ∈ (runMain w).trace) ∧
    (w.envWriteFails = true → Ev.warnEnv ∈ (runMain w).trace) := by
  have he : (mainPhase w).err = none := by rw [← runMain_dbError w]; exact hdb
  rw [runMain_ok_case w he]
  have hmk2 : (mainW1 w).vizDirExists = true ∨ w.mkdirFails = false := by
    rcases hmk with h | h
    · exact Or.inl (by rw [mainW1_vizDir]; exact h)
    · exact Or.inr h
  obtain ⟨h1, h2, h3, h4, _⟩ := exporterPhase_spec (mainW1 w) (mainDbPath w)
    w.connWriteFails w.mkdirFails w.envWriteFails hmk2
  exact ⟨h1, h2,
    fun h => List.mem_append.mpr (Or.inr (h3 h)),
    fun h => List.mem_append.mpr (Or.inr (h4 h))⟩

/-- The healthy world with both descriptor-write faults injected and
the companion directory already present. -/
def c8OkWorld : World := { freshWorld with vizDirExists := true, connWriteFails := true, envWriteFails := true }

/-- Witness for the amended C8: both write faults injected, directory
already present — the run warns twice and still exits 0. -/
theorem claim_C8_amended_witness :
    (runMain c8OkWorld).exitCode = 0 ∧
    (runMain c8OkWorld).warnings =
      ((if c8OkWorld.connWriteFails then 1 else 0) +
       (if c8OkWorld.envWriteFails then 1 else 0)) ∧
    (c8OkWorld.connWriteFails = true → Ev.warnConn ∈ (runMain c8OkWorld).trace) ∧
    (c8OkWorld.envWriteFails = true → Ev.warnEnv ∈ (runMain c8OkWorld).trace) :=
  claim_C8_amended c8OkWorld (by decide) (by decide)

/-- C9: (1) whenever the run opens the database connection, the very
next event is the close — the connection is released before the
exporter section runs and before a database-phase exception is
re-raised — and it is never reopened or re-closed; (2) a
database-phase exception makes the process exit with a non-zero
status. -/
theorem claim_C9 :
    (∀ w : World, Ev.openC ∈ (runMain w).trace →
      ((runMain w).trace.take 2 = [Ev.openC, Ev.closeC] ∧
       Ev.openC ∉ (runMain w).trace.drop 2 ∧
       Ev.closeC ∉ (runMain w).trace.drop 2)) ∧
    (∀ w : World, (runMain w).dbError.isSome = true → (runMain w).exitCode = 1) := by
  constructor
  · intro w hopen
    cases he : (mainPhase w).err with
    | some e =>
      rw [runMain_err_case w e he] at hopen ⊢
      cases hcf : w.connectFails with
      | true =>
        have ht : mainDbTrace w = [Ev.raiseDb] := by simp [mainDbTrace, hcf]
        rw [ht] at hopen
        simp at hopen
      | false =>
        have ht : mainDbTrace w = [Ev.openC, Ev.closeC, Ev.raiseDb] := by
          simp [mainDbTrace, hcf, he]
        rw [ht]
        exact ⟨rfl, by simp, by simp⟩
    | none =>
      rw [runMain_ok_case w he] at hopen ⊢
      cases hcf : w.connectFails with
      | true =>
        have hconn := dbPhase_connectFails_err (dbFileAt w (mainDbPath w)) w.now w.commitFails
        rw [mainPhase, hcf] at he
        rw [he] at hconn
        exact absurd hconn (by simp)
      | false =>
        have ht : mainDbTrace w = [Ev.openC, Ev.closeC] := by
          simp [mainDbTrace, hcf, he]
        have hnc := exporterPhase_no_conn_events (mainW1 w) (mainDbPath w)
          w.connWriteFails w.mkdirFails w.envWriteFails
        rw [ht]
        refine ⟨rfl, ?_, ?_⟩
        · simpa using hnc.1
        · simpa using hnc.2
  · intro w h
    cases he : (mainPhase w).err with
    | some e => rw [runMain_err_case w e he]
    | none =>
      rw [runMain_dbError w, he] at h
      simp at h

/-- Witness for C9: a healthy world (the connection is opened, closed,
then the exporter runs) and a world whose commit fails (exception →
exit status 1). -/
theorem claim_C9_witness :
    (runMain freshWorld).trace.take 2 = [Ev.openC, Ev.closeC] ∧
    (runMain { freshWorld with commitFails := true }).exitCode = 1 :=
  ⟨(claim_C9.1 freshWorld (by decide)).1,
   claim_C9.2 { freshWorld with commitFails := true } (by decide)⟩

/-- The `app_info` rows carrying a given key, as `SELECT * FROM
app_info WHERE key = q` would list them. -/
def appInfoRowsWithKey (db : DB) (q : String) : List (List (String × SqlVal)) :=
  match db.tables.lookup "app_info" with
  | some t => t.rows.filter (fun r => r.lookup "key" == some (SqlVal.textV q))
  | none => []

/-- The `app_info` table is in the state the script's own schema gives
it: present, with `key` and `value` columns, no impossible NOT NULL
column, and the UNIQUE constraint on `key`. -/
def appInfoReady (db : DB) : Bool :=
  match db.tables.lookup "app_info" with
  | none => false
  | some t =>
    (t.cols.find? (fun c => c.name == "key")).isSome &&
    (t.cols.find? (fun c => c.name == "value")).isSome &&
    !(t.cols.any (fun c => c.notnull && c.dflt == ColDefault.noneD && !c.rowidAlias &&
        !(c.name == "key") && !(c.name == "value"))) &&
    (t.cols.find? (fun c => c.name == "key")).all (fun kc => kc.uniq)

theorem beq_comm_str (a b : String) : (a == b) = (b == a) := by
  cases h : (a == b)
  · cases h2 : (b == a)
    · rfl
    · have hba := eq_of_beq h2
      rw [hba, beq_self_eq_true] at h
      exact absurd h (by simp)
  · have hab := eq_of_beq h
    rw [hab, beq_self_eq_true]

theorem lookup_map_name (l : List ColumnDef) (x : String) (g : ColumnDef → SqlVal) :
    List.lookup x (l.map (fun c => (c.name, g c))) =
      (l.find? (fun c => c.name == x)).map g := by
  induction l with
  | nil => rfl
  | cons c cs ih =>
    rw [List.map_cons, List.lookup_cons, List.find?_cons]
    rw [beq_comm_str x c.name]
    cases hx : (c.name == x)
    · simp only []
      exact ih
    · simp only []
      rfl

theorem newAppInfoRow_key (t : Table) (k v : String) (now : Nat) (kc : ColumnDef)
    (hkc : t.cols.find? (fun c => c.name == "key") = some kc) :
    (newAppInfoRow t k v now).lookup "key" = some (SqlVal.textV k) := by
  rw [newAppInfoRow, lookup_map_name, hkc, Option.map_some']
  have hname := List.find?_some hkc
  simp [hname]

theorem newAppInfoRow_value (t : Table) (k v : String) (now : Nat) (vc : ColumnDef)
    (hvc : t.cols.find? (fun c => c.name == "value") = some vc)
    (hkv : ¬ ("value" : String) = "key") :
    (newAppInfoRow t k v now).lookup "value" = some (SqlVal.textV v) := by
  rw [newAppInfoRow, lookup_map_name, hvc, Option.map_some']
  have hname := List.find?_some hvc
  have hname2 : vc.name = "value" := by simpa using hname
  rw [hname2]
  simp [hkv]

theorem filter_after_remove (rows : List (List (String × SqlVal))) (k : String) :
    (rows.filter (fun r => !(r.lookup "key" == some (SqlVal.textV k)))).filter
      (fun r => r.lookup "key" == some (SqlVal.textV k)) = [] := by
  rw [List.filter_filter]
  apply List.filter_eq_nil.mpr
  intro a _
  cases h : (a.lookup "key" == some (SqlVal.textV k)) <;> simp [h]

theorem filter_other_key (rows : List (List (String × SqlVal))) (k q : String)
    (hne : ¬ q = k) :
    (rows.filter (fun r => !(r.lookup "key" == some (SqlVal.textV k)))).filter
      (fun r => r.lookup "key" == some (SqlVal.textV q)) =
    rows.filter (fun r => r.lookup "key" == some (SqlVal.textV q)) := by
  rw [List.filter_filter]
  apply List.filter_congr
  intro a _
  cases h : (a.lookup "key" == some (SqlVal.textV q))
  · simp [h]
  · have ha : a.lookup "key" = some (SqlVal.textV q) := eq_of_beq h
    have hk : (a.lookup "key" == some (SqlVal.textV k)) = false := by
      rw [ha]
      exact beq_eq_false_iff_ne.mpr (by simp [hne])
    rw [hk]
    rfl

theorem appInfoReady_lookup (db : DB) (hr : appInfoReady db = true) :
    ∃ t, db.tables.lookup "app_info" = some t := by
  cases hl : db.tables.lookup "app_info" with
  | none => rw [appInfoReady, hl] at hr; exact absurd hr (by simp)
  | some t => exact ⟨t, rfl⟩

/-- The `app_info` table after one seed upsert of `(k, v)`: the rows
carrying key `k` are removed, the fresh row is appended, and the
AUTOINCREMENT sequence advances. -/
def seededTable (t : Table) (k v : String) (now : Nat) : Table :=
  { t with
    rows := t.rows.filter
        (fun r => !(r.lookup "key" == some (SqlVal.textV k))) ++
      [newAppInfoRow t k v now],
    seq := t.seq + 1 }

/-- The table list after one seed upsert of `(k, v)` into `app_info`. -/
def seededTables (db : DB) (t : Table) (k v : String) (now : Nat) : List (String × Table) :=
  upsertA db.tables "app_info" (seededTable t k v now)

theorem seedStep_ready (db : DB) (now : Nat) (k v : String) (t : Table)
    (hl : db.tables.lookup "app_info" = some t) (hr : appInfoReady db = true) :
    seedStep db now k v =
      ({ db with tables := seededTables db t k v now }, none) := by
  simp only [appInfoReady, hl, Bool.and_eq_true] at hr
  obtain ⟨⟨⟨hks, hvs⟩, hnn⟩, hall⟩ := hr
  obtain ⟨kc, hkc⟩ := Option.isSome_iff_exists.mp hks
  obtain ⟨vc, hvc⟩ := Option.isSome_iff_exists.mp hvs
  have hany : (t.cols.any (fun c => c.notnull && c.dflt == ColDefault.noneD &&
      !c.rowidAlias && !(c.name == "key") && !(c.name == "value"))) = false := by
    simpa using hnn
  have huniq : kc.uniq = true := by
    rw [hkc] at hall
    simpa using hall
  simp only [seedStep, hl, hkc, hvc, hany, Bool.false_eq_true, if_false, huniq, if_true,
    seededTables, seededTable]

theorem appInfoReady_upsert (db : DB) (t t2 : Table)
    (hl : db.tables.lookup "app_info" = some t) (hc : t2.cols = t.cols)
    (hr : appInfoReady db = true) :
    appInfoReady { db with tables := upsertA db.tables "app_info" t2 } = true := by
  simp only [appInfoReady, hl] at hr
  have hup : (upsertA db.tables "app_info" t2).lookup "app_info" = some t2 :=
    upsertA_lookup_self _ _ _
  simp only [appInfoReady, hup, hc]
  exact hr

theorem appInfoReady_key_col (db : DB) (t : Table)
    (hl : db.tables.lookup "app_info" = some t) (hr : appInfoReady db = true) :
    ∃ kc, t.cols.find? (fun c => c.name == "key") = some kc := by
  simp only [appInfoReady, hl, Bool.and_eq_true] at hr
  exact Option.isSome_iff_exists.mp hr.1.1.1

theorem appInfoReady_value_col (db : DB) (t : Table)
    (hl : db.tables.lookup "app_info" = some t) (hr : appInfoReady db = true) :
    ∃ vc, t.cols.find? (fun c => c.name == "value") = some vc := by
  simp only [appInfoReady, hl, Bool.and_eq_true] at hr
  exact Option.isSome_iff_exists.mp hr.1.1.2

theorem appInfoRowsWithKey_seeded (db : DB) (t : Table) (k v : String) (now : Nat)
    (q : String) :
    appInfoRowsWithKey { db with tables := seededTables db t k v now } q =
      ((t.rows.filter (fun r => !(r.lookup "key" == some (SqlVal.textV k)))) ++
        [newAppInfoRow t k v now]).filter
        (fun r => r.lookup "key" == some (SqlVal.textV q)) := by
  have hup : (seededTables db t k v now).lookup "app_info" = some (seededTable t k v now) :=
    upsertA_lookup_self _ _ _
  simp only [appInfoRowsWithKey, hup, seededTable]

theorem appInfoRowsWithKey_seeded_self (db : DB) (t : Table) (k v : String) (now : Nat)
    (hl : db.tables.lookup "app_info" = some t) (hr : appInfoReady db = true) :
    appInfoRowsWithKey { db with tables := seededTables db t k v now } k =
      [newAppInfoRow t k v now] := by
  obtain ⟨kc, hkc⟩ := appInfoReady_key_col db t hl hr
  rw [appInfoRowsWithKey_seeded, List.filter_append, filter_after_remove]
  have hkey := newAppInfoRow_key t k v now kc hkc
  simp [hkey]

theorem appInfoRowsWithKey_seeded_other (db : DB) (t : Table) (k v : String) (now : Nat)
    (q : String) (hne : ¬ q = k)
    (hl : db.tables.lookup "app_info" = some t) (hr : appInfoReady db = true) :
    appInfoRowsWithKey { db with tables := seededTables db t k v now } q =
      appInfoRowsWithKey db q := by
  obtain ⟨kc, hkc⟩ := appInfoReady_key_col db t hl hr
  rw [appInfoRowsWithKey_seeded, List.filter_append, filter_other_key _ _ _ hne]
  have hkey := newAppInfoRow_key t k v now kc hkc
  have hvne : ¬ (SqlVal.textV k) = (SqlVal.textV q) := by
    intro hh
    exact hne (SqlVal.textV.inj hh).symm
  have hf : ((newAppInfoRow t k v now).lookup "key" == some (SqlVal.textV q)) = false := by
    rw [hkey]
    exact beq_eq_false_iff_ne.mpr (by simpa using hvne)
  have hnew : (List.filter (fun r => r.lookup "key" == some (SqlVal.textV q))
      [newAppInfoRow t k v now]) = [] := by
    simp [List.filter_cons, hf]
  rw [hnew, List.append_nil, appInfoRowsWithKey, hl]

theorem appInfoReady_seeded (db : DB) (t : Table) (k v : String) (now : Nat)
    (hl : db.tables.lookup "app_info" = some t) (hr : appInfoReady db = true) :
    appInfoReady { db with tables := seededTables db t k v now } = true :=
  appInfoReady_upsert db t (seededTable t k v now) hl rfl hr

theorem seedList_spec (now : Nat) :
    ∀ (kvs : List (String × String)) (db : DB),
      appInfoReady db = true →
      List.Pairwise (fun a b => ¬ a.1 = b.1) kvs →
      (seedList db now kvs).2 = none ∧
      appInfoReady (seedList db now kvs).1 = true ∧
      (∀ q : String, (∀ p ∈ kvs, ¬ p.1 = q) →
        appInfoRowsWithKey (seedList db now kvs).1 q = appInfoRowsWithKey db q) ∧
      (∀ k2 v2, (k2, v2) ∈ kvs →
        (appInfoRowsWithKey (seedList db now kvs).1 k2).map
          (fun r => r.lookup "value") = [some (SqlVal.textV v2)]) := by
  intro kvs
  induction kvs with
  | nil =>
    intro db hr _
    refine ⟨rfl, hr, fun q _ => rfl, ?_⟩
    intro k2 v2 hmem
    exact absurd hmem (List.not_mem_nil _)
  | cons kv rest ih =>
    obtain ⟨k, v⟩ := kv
    intro db hr hpw
    obtain ⟨t, hl⟩ := appInfoReady_lookup db hr
    have hstep := seedStep_ready db now k v t hl hr
    have hlist : seedList db now ((k, v) :: rest) =
        seedList { db with tables := seededTables db t k v now } now rest := by
      rw [seedList, hstep]
    have hr1 : appInfoReady { db with tables := seededTables db t k v now } = true :=
      appInfoReady_seeded db t k v now hl hr
    have hpw2 := List.pairwise_cons.mp hpw
    obtain ⟨ih1, ih2, ih3, ih4⟩ :=
      ih { db with tables := seededTables db t k v now } hr1 hpw2.2
    refine ⟨?_, ?_, ?_, ?_⟩
    · rw [hlist]; exact ih1
    · rw [hlist]; exact ih2
    · intro q hq
      rw [hlist]
      have hqr : ∀ p ∈ rest, ¬ p.1 = q := fun p hp => hq p (List.mem_cons_of_mem _ hp)
      rw [ih3 q hqr]
      have hkq : ¬ (k = q) := hq (k, v) (List.mem_cons_self _ _)
      exact appInfoRowsWithKey_seeded_other db t k v now q (fun hh => hkq hh.symm) hl hr
    · intro k2 v2 hmem
      rcases List.mem_cons.mp hmem with hph | hpr
      · have hk1 : k2 = k := congrArg Prod.fst hph
        have hv1 : v2 = v := congrArg Prod.snd hph
        subst hk1
        subst hv1
        rw [hlist]
        have hkrest : ∀ p2 ∈ rest, ¬ p2.1 = k2 := by
          intro p2 hp2
          have hne := hpw2.1 p2 hp2
          exact fun hh => hne hh.symm
        rw [ih3 k2 hkrest, appInfoRowsWithKey_seeded_self db t k2 v2 now hl hr]
        obtain ⟨vc, hvc⟩ := appInfoReady_value_col db t hl hr
        rw [List.map_cons, List.map_nil,
          newAppInfoRow_value t k2 v2 now vc hvc (by decide)]
      · rw [hlist]
        exact ih4 k2 v2 hpr

/-- The literal seed rows with the `description` literal replaced by
`d` (all four `INSERT OR REPLACE` statements of init_db.py lines
195-210, the last with an edited value). -/
def seedPairsWith (d : String) : List (String × String) :=
  [("project_name", "database"), ("version", "0.1.0"), ("author", "John Doe"),
    ("description", d)]

/-- Any number of earlier seeding runs, each at its own clock value and
with its own `description` literal. -/
def seedRuns (db : DB) : List (Nat × String) → DB
  | [] => db
  | (now, d) :: rest => seedRuns (seedList db now (seedPairsWith d)).1 rest

theorem seedPairsWith_pairwise (d : String) :
    List.Pairwise (fun (a b : String × String) => ¬ a.1 = b.1) (seedPairsWith d) := by
  simp [seedPairsWith, List.pairwise_cons]

theorem seedRuns_ready : ∀ (runs : List (Nat × String)) (db : DB),
    appInfoReady db = true → appInfoReady (seedRuns db runs) = true := by
  intro runs
  induction runs with
  | nil => intro db hr; exact hr
  | cons r rest ih =>
    obtain ⟨now, d⟩ := r
    intro db hr
    have h := seedList_spec now (seedPairsWith d) db hr (seedPairsWith_pairwise d)
    simp only [seedRuns]
    exact ih _ h.2.1

/-- C4: for every one of the four fixed metadata keys, after any number
of seeding runs (each an arbitrary earlier run of the four `INSERT OR
REPLACE` statements, possibly with a different `description` literal)
followed by one more seeding run, the `app_info` table contains exactly
one row with that key, and it holds the value from the most recent run
— never two rows.  The hypothesis says `app_info` is in the state the
script's own `CREATE TABLE` gives it (present, `key`/`value` columns,
`key` UNIQUE, no impossible NOT NULL column). -/
theorem claim_C4 : ∀ (db : DB) (runs : List (Nat × String)) (now : Nat) (d : String),
    appInfoReady db = true →
    (seedList (seedRuns db runs) now (seedPairsWith d)).2 = none ∧
    (∀ k2 v2, (k2, v2) ∈ seedPairsWith d →
      (appInfoRowsWithKey (seedList (seedRuns db runs) now (seedPairsWith d)).1 k2).map
        (fun r => r.lookup "value") = [some (SqlVal.textV v2)]) := by
  intro db runs now d hr
  have hr2 := seedRuns_ready runs db hr
  have h := seedList_spec now (seedPairsWith d) (seedRuns db runs) hr2
    (seedPairsWith_pairwise d)
  exact ⟨h.1, h.2.2.2⟩

/-- C4 witness: the freshly created schema is ready, and seeding twice
with the `description` literal changed from "first" to "second" leaves
exactly one row per key, with `description` holding "second". -/
theorem claim_C4_witness :
    appInfoReady (ensureAllTables emptyDB).1 = true ∧
    ((seedList (seedRuns (ensureAllTables emptyDB).1 [(5, "first")]) 7
        (seedPairsWith "second")).2 = none ∧
      (∀ k2 v2, (k2, v2) ∈ seedPairsWith "second" →
        (appInfoRowsWithKey (seedList (seedRuns (ensureAllTables emptyDB).1 [(5, "first")]) 7
            (seedPairsWith "second")).1 k2).map
          (fun r => r.lookup "value") = [some (SqlVal.textV v2)])) :=
  ⟨by decide, claim_C4 (ensureAllTables emptyDB).1 [(5, "first")] 7 "second" (by decide)⟩

theorem contains_iff_mem (l : List String) (s : String) : l.contains s = true ↔ s ∈ l :=
  List.elem_iff

theorem lookup_append_left {α : Type} (l1 l2 : List (String × α)) (k : String) (v : α)
    (h : l1.lookup k = some v) : (l1 ++ l2).lookup k = some v := by
  induction l1 with
  | nil => exact absurd h (by simp)
  | cons p rest ih =>
    obtain ⟨k1, v1⟩ := p
    rw [List.lookup_cons] at h
    show List.lookup k ((k1, v1) :: (rest ++ l2)) = some v
    rw [List.lookup_cons]
    cases hk : (k == k1)
    · simp only [hk] at h ⊢
      exact ih h
    · simp only [hk] at h ⊢
      exact h

theorem lookup_append_right {α : Type} (l1 l2 : List (String × α)) (k : String)
    (h : l1.lookup k = none) : (l1 ++ l2).lookup k = l2.lookup k := by
  induction l1 with
  | nil => rfl
  | cons p rest ih =>
    obtain ⟨k1, v1⟩ := p
    rw [List.lookup_cons] at h
    show List.lookup k ((k1, v1) :: (rest ++ l2)) = List.lookup k l2
    rw [List.lookup_cons]
    cases hk : (k == k1)
    · simp only [hk] at h ⊢
      exact ih h
    · simp only [hk] at h
      exact absurd h (by simp)

theorem tableExists_congr (db db' : DB) (n : String)
    (h : db'.tables.lookup n = db.tables.lookup n) : tableExists db' n = tableExists db n := by
  rw [tableExists, tableExists, h]

theorem colNamesOf_congr (db db' : DB) (n : String)
    (h : db'.tables.lookup n = db.tables.lookup n) : colNamesOf db' n = colNamesOf db n := by
  rw [colNamesOf, colNamesOf, h]

theorem appInfoReady_congr (db db' : DB)
    (h : db'.tables.lookup "app_info" = db.tables.lookup "app_info") :
    appInfoReady db' = appInfoReady db := by
  rw [appInfoReady, appInfoReady, h]

theorem upsertA_map_proj (k : String) (t t2 : Table) (hc : t2.cols = t.cols) :
    ∀ (l : List (String × Table)), l.lookup k = some t →
      (upsertA l k t2).map (fun nt => (nt.1, nt.2.cols)) =
        l.map (fun nt => (nt.1, nt.2.cols)) := by
  intro l
  induction l with
  | nil => intro hl; exact absurd hl (by simp)
  | cons p rest ih =>
    obtain ⟨k', v'⟩ := p
    intro hl
    rw [List.lookup_cons] at hl
    rw [upsertA]
    by_cases he : k' = k
    · have hk : (k == k') = true := beq_iff_eq.mpr he.symm
      simp only [hk] at hl
      have hv : v' = t := Option.some.inj hl
      rw [if_pos he, List.map_cons, List.map_cons, hv, hc, he]
    · have hk : (k == k') = false := by
        apply beq_eq_false_iff_ne.mpr
        exact fun hh => he hh.symm
      simp only [hk] at hl
      rw [if_neg he, List.map_cons, List.map_cons, ih hl]

/-- The `app_info` table as the script's own CREATE TABLE makes it. -/
def freshAppInfoTable : Table := { cols := appInfoCols, rows := [], seq := 0 }

theorem createTable_lookup_other (db : DB) (name other : String) (cols : List ColumnDef)
    (hne : ¬ other = name) :
    (createTableIfNotExists db name cols).tables.lookup other = db.tables.lookup other := by
  rw [createTableIfNotExists]
  split
  · rfl
  · show (db.tables ++ [(name, _)]).lookup other = db.tables.lookup other
    cases hl : db.tables.lookup other with
    | some t => exact lookup_append_left _ _ _ _ hl
    | none =>
      rw [lookup_append_right _ _ _ hl, List.lookup_cons]
      have : (other == name) = false := beq_eq_false_iff_ne.mpr hne
      rw [this]
      rfl

theorem createTable_lookup_present (db : DB) (name : String) (cols : List ColumnDef)
    (t : Table) (h : db.tables.lookup name = some t) :
    (createTableIfNotExists db name cols).tables.lookup name = some t := by
  rw [createTableIfNotExists, tableExists, h, Option.isSome_some, if_pos rfl]
  exact h

theorem createTable_lookup_absent (db : DB) (name : String) (cols : List ColumnDef)
    (h : db.tables.lookup name = none) :
    (createTableIfNotExists db name cols).tables.lookup name =
      some { cols := cols, rows := [], seq := 0 } := by
  rw [createTableIfNotExists, tableExists, h]
  show ((db.tables ++ [(name, _)]).lookup name) = _
  rw [lookup_append_right _ _ _ h, List.lookup_cons]
  have : (name == name) = true := by simp
  rw [this]

theorem createTable_exists_self (db : DB) (name : String) (cols : List ColumnDef) :
    tableExists (createTableIfNotExists db name cols) name = true := by
  cases h : db.tables.lookup name with
  | some t => rw [tableExists, createTable_lookup_present db name cols t h]; rfl
  | none => rw [tableExists, createTable_lookup_absent db name cols h]; rfl

theorem createTable_triggers (db : DB) (name : String) (cols : List ColumnDef) :
    (createTableIfNotExists db name cols).triggers = db.triggers := by
  rw [createTableIfNotExists]
  split <;> rfl

theorem alterAddColumn_ok_effects (db : DB) (name : String) (c : ColumnDef) (d : DB)
    (h : alterAddColumn db name c = Except.ok d) :
    (∀ other, ¬ other = name → d.tables.lookup other = db.tables.lookup other) ∧
    colNamesOf d name = colNamesOf db name ++ [c.name] ∧
    (∀ n, (db.tables.lookup n).isSome = true → (d.tables.lookup n).isSome = true) ∧
    d.triggers = db.triggers := by
  rw [alterAddColumn] at h
  cases hl : db.tables.lookup name with
  | none => rw [hl] at h; exact absurd h (by simp)
  | some t =>
    simp only [hl] at h
    by_cases h1 : (c.dflt == ColDefault.currentTs) = true
    · rw [if_pos h1] at h
      exact absurd h (by simp)
    · rw [if_neg h1] at h
      by_cases h2 : (c.notnull && c.dflt == ColDefault.noneD) = true
      · rw [if_pos h2] at h
        exact absurd h (by simp)
      · rw [if_neg h2] at h
        have hd := Except.ok.inj h
        subst hd
        refine ⟨?_, ?_, ?_, rfl⟩
        · intro other hne
          exact upsertA_lookup_ne _ _ _ _ hne
        · simp only [colNamesOf, upsertA_lookup_self, hl]
          simp
        · intro n hn
          by_cases he : n = name
          · subst he
            rw [upsertA_lookup_self]
            rfl
          · rw [upsertA_lookup_ne _ _ _ _ he]
            exact hn

/-- The persistent schema is already everything the script ensures:
the three tables exist, `notes` carries all required columns, and the
`notes_set_updated_at` trigger is installed. -/
def schemaReady (db : DB) : Bool :=
  tableExists db "app_info" && tableExists db "users" && tableExists db "notes" &&
  notesReqCols.all (fun c => (colNamesOf db "notes").contains c.name) &&
  db.triggers.contains trigName

theorem addCols_skip (db : DB) (name : String) (existing : List String) :
    ∀ (cs : List ColumnDef), cs.all (fun c => existing.contains c.name) = true →
      addCols db name existing cs = (db, none) := by
  intro cs
  induction cs with
  | nil => intro _; rfl
  | cons c rest ih =>
    intro h
    rw [List.all_cons, Bool.and_eq_true] at h
    rw [addCols, if_pos h.1]
    exact ih h.2

theorem ensureTable_noreq (db : DB) (name : String) (cols : List ColumnDef) :
    ensureTable db name cols [] = (createTableIfNotExists db name cols, none) := rfl

theorem ensureAllTables_ready (db : DB) (h : schemaReady db = true) :
    ensureAllTables db = (db, none) := by
  rw [schemaReady] at h
  simp only [Bool.and_eq_true] at h
  obtain ⟨⟨⟨⟨hA, hU⟩, hN⟩, hReq⟩, hT⟩ := h
  have cA : createTableIfNotExists db "app_info" appInfoCols = db := by
    rw [createTableIfNotExists, hA, if_pos rfl]
  have cU : createTableIfNotExists db "users" usersCols = db := by
    rw [createTableIfNotExists, hU, if_pos rfl]
  have cN : createTableIfNotExists db "notes" notesCols = db := by
    rw [createTableIfNotExists, hN, if_pos rfl]
  have e1 : ensureTable db "app_info" appInfoCols [] = (db, none) := by
    rw [ensureTable_noreq, cA]
  have e2 : ensureTable db "users" usersCols [] = (db, none) := by
    rw [ensureTable_noreq, cU]
  have e3 : ensureTable db "notes" notesCols notesReqCols = (db, none) := by
    rw [ensureTable]
    show addCols (createTableIfNotExists db "notes" notesCols) "notes"
      (colNamesOf (createTableIfNotExists db "notes" notesCols) "notes") notesReqCols = (db, none)
    rw [cN]
    exact addCols_skip db "notes" (colNamesOf db "notes") notesReqCols hReq
  have e4 : ensureNotesUpdatedAtTrigger db = db := by
    rw [ensureNotesUpdatedAtTrigger, hT, if_pos rfl]
  simp only [ensureAllTables, e1, e2, e3, e4]

theorem addCols_effects (name : String) :
    ∀ (cs : List ColumnDef) (db : DB) (existing : List String) (d : DB),
      addCols db name existing cs = (d, none) →
      (∀ s, existing.contains s = true → (colNamesOf db name).contains s = true) →
      (∀ other, ¬ other = name → d.tables.lookup other = db.tables.lookup other) ∧
      (∀ n, (db.tables.lookup n).isSome = true → (d.tables.lookup n).isSome = true) ∧
      (∀ s, (colNamesOf db name).contains s = true → (colNamesOf d name).contains s = true) ∧
      (∀ c ∈ cs, (colNamesOf d name).contains c.name = true) ∧
      d.triggers = db.triggers := by
  intro cs
  induction cs with
  | nil =>
    intro db existing d h _
    rw [addCols] at h
    have hd : db = d := congrArg Prod.fst h
    subst hd
    exact ⟨fun _ _ => rfl, fun _ hh => hh, fun _ hh => hh, by simp, rfl⟩
  | cons c rest ih =>
    intro db existing d h hsub
    rw [addCols] at h
    cases hex : existing.contains c.name with
    | true =>
      rw [if_pos hex] at h
      obtain ⟨o1, o2, o3, o4, o5⟩ := ih db existing d h hsub
      refine ⟨o1, o2, o3, ?_, o5⟩
      intro c2 hc2
      rcases List.mem_cons.mp hc2 with hh | hh
      · subst hh
        exact o3 c2.name (hsub c2.name hex)
      · exact o4 c2 hh
    | false =>
      have hnex : ¬ existing.contains c.name = true := by
        rw [hex]
        decide
      rw [if_neg hnex] at h
      cases halt : alterAddColumn db name c with
      | error e =>
        rw [halt] at h
        have : (some e : Option String) = none := congrArg Prod.snd h
        exact absurd this (by simp)
      | ok d' =>
        rw [halt] at h
        obtain ⟨a1, a2, a3, a4⟩ := alterAddColumn_ok_effects db name c d' halt
        have hsub' : ∀ s, existing.contains s = true →
            (colNamesOf d' name).contains s = true := by
          intro s hh
          rw [a2, contains_iff_mem]
          exact List.mem_append.mpr (Or.inl ((contains_iff_mem _ _).mp (hsub s hh)))
        obtain ⟨o1, o2, o3, o4, o5⟩ := ih d' existing d h hsub'
        refine ⟨?_, ?_, ?_, ?_, ?_⟩
        · intro other hne
          rw [o1 other hne, a1 other hne]
        · intro n hn
          exact o2 n (a3 n hn)
        · intro s hh
          apply o3
          rw [a2, contains_iff_mem]
          exact List.mem_append.mpr (Or.inl ((contains_iff_mem _ _).mp hh))
        · intro c2 hc2
          rcases List.mem_cons.mp hc2 with hh | hh
          · subst hh
            apply o3
            rw [a2, contains_iff_mem]
            exact List.mem_append.mpr (Or.inr (List.mem_singleton.mpr rfl))
          · exact o4 c2 hh
        · rw [o5, a4]

theorem ensureTrigger_tables (db : DB) :
    (ensureNotesUpdatedAtTrigger db).tables = db.tables := by
  rw [ensureNotesUpdatedAtTrigger]
  split <;> rfl

theorem ensureTrigger_contains (db : DB) :
    (ensureNotesUpdatedAtTrigger db).triggers.contains trigName = true := by
  rw [ensureNotesUpdatedAtTrigger]
  split
  next hh => exact hh
  next hh =>
    show (db.triggers ++ [trigName]).contains trigName = true
    rw [contains_iff_mem]
    exact List.mem_append.mpr (Or.inr (List.mem_singleton.mpr rfl))

theorem ensureAllTables_post (db0 d1 : DB) (h : ensureAllTables db0 = (d1, none)) :
    schemaReady d1 = true ∧
    (d1.tables.lookup "app_info" = db0.tables.lookup "app_info" ∨
      (db0.tables.lookup "app_info" = none ∧
       d1.tables.lookup "app_info" = some freshAppInfoTable)) := by
  rw [ensureAllTables] at h
  rcases h1 : ensureTable db0 "app_info" appInfoCols [] with ⟨a1, e1⟩
  cases e1 with
  | some e =>
    simp only [h1] at h
    have hs := congrArg Prod.snd h
    simp at hs
  | none =>
    simp only [h1] at h
    rcases h2 : ensureTable a1 "users" usersCols [] with ⟨a2, e2⟩
    cases e2 with
    | some e =>
      simp only [h2] at h
      have hs := congrArg Prod.snd h
      simp at hs
    | none =>
      simp only [h2] at h
      rcases h3 : ensureTable a2 "notes" notesCols notesReqCols with ⟨a3, e3⟩
      cases e3 with
      | some e =>
        simp only [h3] at h
        have hs := congrArg Prod.snd h
        simp at hs
      | none =>
        simp only [h3] at h
        have hd1 : ensureNotesUpdatedAtTrigger a3 = d1 := congrArg Prod.fst h
        subst hd1
        rw [ensureTable_noreq] at h1 h2
        have ha1 : a1 = createTableIfNotExists db0 "app_info" appInfoCols :=
          (congrArg Prod.fst h1).symm
        have ha2 : a2 = createTableIfNotExists a1 "users" usersCols :=
          (congrArg Prod.fst h2).symm
        simp only [ensureTable] at h3
        obtain ⟨o1, o2, o3, o4, o5⟩ := addCols_effects "notes" notesReqCols
          (createTableIfNotExists a2 "notes" notesCols)
          (colNamesOf (createTableIfNotExists a2 "notes" notesCols) "notes") a3 h3
          (fun s hh => hh)
        have hkeep : (ensureNotesUpdatedAtTrigger a3).tables.lookup "app_info" =
            a1.tables.lookup "app_info" := by
          rw [ensureTrigger_tables, o1 "app_info" (by decide),
            createTable_lookup_other a2 "notes" "app_info" notesCols (by decide),
            ha2, createTable_lookup_other a1 "users" "app_info" usersCols (by decide)]
        have hA2 : tableExists (ensureNotesUpdatedAtTrigger a3) "app_info" = true := by
          rw [tableExists, hkeep, ha1]
          cases hl0 : db0.tables.lookup "app_info" with
          | some t =>
            rw [createTable_lookup_present db0 "app_info" appInfoCols t hl0]
            rfl
          | none =>
            rw [createTable_lookup_absent db0 "app_info" appInfoCols hl0]
            rfl
        have hU2 : tableExists (ensureNotesUpdatedAtTrigger a3) "users" = true := by
          rw [tableExists, ensureTrigger_tables]
          apply o2
          rw [createTable_lookup_other a2 "notes" "users" notesCols (by decide), ha2]
          have hx := createTable_exists_self a1 "users" usersCols
          rw [tableExists] at hx
          exact hx
        have hN2 : tableExists (ensureNotesUpdatedAtTrigger a3) "notes" = true := by
          rw [tableExists, ensureTrigger_tables]
          apply o2
          have hx := createTable_exists_self a2 "notes" notesCols
          rw [tableExists] at hx
          exact hx
        have hReq2 : notesReqCols.all
            (fun c => (colNamesOf (ensureNotesUpdatedAtTrigger a3) "notes").contains c.name) =
            true := by
          apply List.all_eq_true.mpr
          intro c hc
          show (colNamesOf (ensureNotesUpdatedAtTrigger a3) "notes").contains c.name = true
          have hcn : colNamesOf (ensureNotesUpdatedAtTrigger a3) "notes" =
              colNamesOf a3 "notes" := by
            rw [colNamesOf, colNamesOf, ensureTrigger_tables]
          rw [hcn]
          exact o4 c hc
        constructor
        · rw [schemaReady]
          simp only [Bool.and_eq_true]
          exact ⟨⟨⟨⟨hA2, hU2⟩, hN2⟩, hReq2⟩, ensureTrigger_contains a3⟩
        · cases hl0 : db0.tables.lookup "app_info" with
          | some t =>
            left
            rw [hkeep, ha1, createTable_lookup_present db0 "app_info" appInfoCols t hl0]
          | none =>
            right
            refine ⟨rfl, ?_⟩
            rw [hkeep, ha1, createTable_lookup_absent db0 "app_info" appInfoCols hl0]
            rfl

theorem schemaReady_seedStep (db : DB) (t : Table) (k v : String) (now : Nat)
    (hl : db.tables.lookup "app_info" = some t) (hs : schemaReady db = true) :
    schemaReady { db with tables := seededTables db t k v now } = true := by
  have hA : ({ db with tables := seededTables db t k v now } : DB).tables.lookup "app_info" =
      some (seededTable t k v now) := upsertA_lookup_self _ _ _
  have hU : ({ db with tables := seededTables db t k v now } : DB).tables.lookup "users" =
      db.tables.lookup "users" := upsertA_lookup_ne _ _ _ _ (by decide)
  have hN : ({ db with tables := seededTables db t k v now } : DB).tables.lookup "notes" =
      db.tables.lookup "notes" := upsertA_lookup_ne _ _ _ _ (by decide)
  rw [schemaReady] at hs ⊢
  simp only [Bool.and_eq_true] at hs ⊢
  obtain ⟨⟨⟨⟨sA, sU⟩, sN⟩, sReq⟩, sT⟩ := hs
  refine ⟨⟨⟨⟨?_, ?_⟩, ?_⟩, ?_⟩, sT⟩
  · rw [tableExists, hA]
    rfl
  · rw [tableExists, hU]
    rw [tableExists] at sU
    exact sU
  · rw [tableExists, hN]
    rw [tableExists] at sN
    exact sN
  · rw [colNamesOf_congr db _ "notes" hN]
    exact sReq

theorem seedList_schemaReady (now : Nat) :
    ∀ (kvs : List (String × String)) (db : DB),
      appInfoReady db = true → schemaReady db = true →
      schemaReady (seedList db now kvs).1 = true := by
  intro kvs
  induction kvs with
  | nil => intro db _ hs; exact hs
  | cons kv rest ih =>
    obtain ⟨k, v⟩ := kv
    intro db hr hs
    obtain ⟨t, hl⟩ := appInfoReady_lookup db hr
    have hstep := seedStep_ready db now k v t hl hr
    have hlist : seedList db now ((k, v) :: rest) =
        seedList { db with tables := seededTables db t k v now } now rest := by
      rw [seedList, hstep]
    rw [hlist]
    exact ih _ (appInfoReady_seeded db t k v now hl hr) (schemaReady_seedStep db t k v now hl hs)

theorem dbSchema_seedStep (db : DB) (t : Table) (k v : String) (now : Nat)
    (hl : db.tables.lookup "app_info" = some t) :
    dbSchema { db with tables := seededTables db t k v now } = dbSchema db := by
  rw [dbSchema, dbSchema]
  show ((seededTables db t k v now).map (fun nt => (nt.1, nt.2.cols)), db.triggers) = _
  rw [seededTables, upsertA_map_proj "app_info" t (seededTable t k v now) rfl db.tables hl]

theorem seedList_dbSchema (now : Nat) :
    ∀ (kvs : List (String × String)) (db : DB),
      appInfoReady db = true →
      dbSchema (seedList db now kvs).1 = dbSchema db := by
  intro kvs
  induction kvs with
  | nil => intro db _; rfl
  | cons kv rest ih =>
    obtain ⟨k, v⟩ := kv
    intro db hr
    obtain ⟨t, hl⟩ := appInfoReady_lookup db hr
    have hstep := seedStep_ready db now k v t hl hr
    have hlist : seedList db now ((k, v) :: rest) =
        seedList { db with tables := seededTables db t k v now } now rest := by
      rw [seedList, hstep]
    rw [hlist, ih _ (appInfoReady_seeded db t k v now hl hr), dbSchema_seedStep db t k v now hl]

/-- The database file's pre-existing `app_info` table (when there is
one) declares the script's own schema: `key`/`value` columns, `key`
UNIQUE, no NOT NULL column that lacks a default.  A file without an
`app_info` table is always compatible — the script creates it. -/
def appInfoCompat (db : DB) : Bool :=
  match db.tables.lookup "app_info" with
  | none => true
  | some _ => appInfoReady db

theorem dbPhase_ok (db0 : DB) (now : Nat) (cm : Bool)
    (he : (dbPhase db0 now false cm).err = none) :
    ∃ d1 d2, ensureAllTables db0 = (d1, none) ∧ seedAll d1 now = (d2, none) ∧
      cm = false ∧ (dbPhase db0 now false cm).db = d2 := by
  rcases h1 : ensureAllTables db0 with ⟨d1, e1⟩
  cases e1 with
  | some e =>
    rw [dbPhase] at he
    simp only [Bool.false_eq_true, if_false, h1] at he
    exact absurd he (by simp)
  | none =>
    rcases h2 : seedAll d1 now with ⟨d2, e2⟩
    cases e2 with
    | some e =>
      rw [dbPhase] at he
      simp only [Bool.false_eq_true, if_false, h1, h2] at he
      exact absurd he (by simp)
    | none =>
      cases hcm : cm with
      | true =>
        rw [dbPhase] at he
        simp only [Bool.false_eq_true, if_false, h1, h2, hcm, if_true] at he
        exact absurd he (by simp)
      | false =>
        refine ⟨d1, d2, rfl, h2, rfl, ?_⟩
        rw [dbPhase]
        simp [h1, h2]

theorem seedList_rows (now : Nat) :
    ∀ (kvs : List (String × String)) (db : DB) (t : Table),
      db.tables.lookup "app_info" = some t →
      appInfoReady db = true →
      List.Pairwise (fun a b => ¬ a.1 = b.1) kvs →
      ∃ tf, (seedList db now kvs).1.tables.lookup "app_info" = some tf ∧
        tf.cols = t.cols ∧
        tf.rows.map rowKV =
          (t.rows.filter (fun r => kvs.all
            (fun q => !(r.lookup "key" == some (SqlVal.textV q.1))))).map rowKV ++
          kvs.map (fun q => (some (SqlVal.textV q.1), some (SqlVal.textV q.2))) := by
  intro kvs
  induction kvs with
  | nil =>
    intro db t hl hr _
    refine ⟨t, hl, rfl, ?_⟩
    simp
  | cons kv rest ih =>
    obtain ⟨k, v⟩ := kv
    intro db t hl hr hpw
    have hpw2 := List.pairwise_cons.mp hpw
    have hstep := seedStep_ready db now k v t hl hr
    have hlist : seedList db now ((k, v) :: rest) =
        seedList { db with tables := seededTables db t k v now } now rest := by
      rw [seedList, hstep]
    have hl2 : ({ db with tables := seededTables db t k v now } : DB).tables.lookup
        "app_info" = some (seededTable t k v now) := upsertA_lookup_self _ _ _
    have hr2 := appInfoReady_seeded db t k v now hl hr
    obtain ⟨tf, f1, f2, f3⟩ := ih { db with tables := seededTables db t k v now }
      (seededTable t k v now) hl2 hr2 hpw2.2
    obtain ⟨kc, hkc⟩ := appInfoReady_key_col db t hl hr
    obtain ⟨vc, hvc⟩ := appInfoReady_value_col db t hl hr
    have hkey := newAppInfoRow_key t k v now kc hkc
    have hvval := newAppInfoRow_value t k v now vc hvc (by decide)
    refine ⟨tf, by rw [hlist]; exact f1, f2, ?_⟩
    rw [f3]
    show ((t.rows.filter (fun r => !(r.lookup "key" == some (SqlVal.textV k))) ++
        [newAppInfoRow t k v now]).filter (fun r => rest.all
          (fun q => !(r.lookup "key" == some (SqlVal.textV q.1))))).map rowKV ++ _ = _
    rw [List.filter_append]
    have hnewall : (rest.all (fun q => !((newAppInfoRow t k v now).lookup "key" ==
        some (SqlVal.textV q.1)))) = true := by
      apply List.all_eq_true.mpr
      intro q hq
      show (!((newAppInfoRow t k v now).lookup "key" == some (SqlVal.textV q.1))) = true
      rw [hkey]
      have hne : ¬ (k = q.1) := hpw2.1 q hq
      have hf : ((some (SqlVal.textV k) : Option SqlVal) == some (SqlVal.textV q.1)) =
          false := by
        apply beq_eq_false_iff_ne.mpr
        intro hh
        exact hne (SqlVal.textV.inj (Option.some.inj hh))
      rw [hf]
      rfl
    have hnew : (List.filter (fun r => rest.all
        (fun q => !(r.lookup "key" == some (SqlVal.textV q.1)))) [newAppInfoRow t k v now]) =
        [newAppInfoRow t k v now] := by
      simp only [List.filter_cons, hnewall, if_true]
      rfl
    rw [hnew]
    have hff : (t.rows.filter (fun r => !(r.lookup "key" == some (SqlVal.textV k)))).filter
        (fun r => rest.all (fun q => !(r.lookup "key" == some (SqlVal.textV q.1)))) =
        t.rows.filter (fun r => ((k, v) :: rest).all
          (fun q => !(r.lookup "key" == some (SqlVal.textV q.1)))) := by
      rw [List.filter_filter]
      apply List.filter_congr
      intro r _
      rw [List.all_cons]
      exact Bool.and_comm _ _
    rw [hff, List.map_append]
    have hkv : rowKV (newAppInfoRow t k v now) =
        (some (SqlVal.textV k), some (SqlVal.textV v)) := by
      rw [rowKV, hkey, hvval]
    rw [List.map_cons]
    simp [hkv]

theorem filter_map_rowKV (kvs : List (String × String)) :
    ∀ (rows : List (List (String × SqlVal))),
      (rows.filter (fun r => kvs.all
        (fun q => !(r.lookup "key" == some (SqlVal.textV q.1))))).map rowKV =
      (rows.map rowKV).filter (fun ab => kvs.all
        (fun q => !(ab.1 == some (SqlVal.textV q.1)))) := by
  intro rows
  induction rows with
  | nil => rfl
  | cons r rs ih =>
    rw [List.map_cons, List.filter_cons, List.filter_cons]
    cases h : (kvs.all (fun q => !(r.lookup "key" == some (SqlVal.textV q.1))))
    · have hc : (kvs.all (fun q => !((rowKV r).1 == some (SqlVal.textV q.1)))) = false := h
      rw [if_neg (by decide), if_neg (by rw [hc]; decide)]
      exact ih
    · have hc : (kvs.all (fun q => !((rowKV r).1 == some (SqlVal.textV q.1)))) = true := h
      rw [if_pos rfl, if_pos hc, List.map_cons, ih]

theorem seed_idem_kvs (db : DB) (n1 n2 : Nat) (kvs : List (String × String))
    (hr : appInfoReady db = true)
    (hpw : List.Pairwise (fun a b => ¬ a.1 = b.1) kvs) :
    appInfoKVs (seedList (seedList db n1 kvs).1 n2 kvs).1 =
      appInfoKVs (seedList db n1 kvs).1 := by
  obtain ⟨t, hl⟩ := appInfoReady_lookup db hr
  obtain ⟨tf1, g1, g2, g3⟩ := seedList_rows n1 kvs db t hl hr hpw
  have hr1 : appInfoReady (seedList db n1 kvs).1 = true :=
    (seedList_spec n1 kvs db hr hpw).2.1
  obtain ⟨tf2, j1, j2, j3⟩ := seedList_rows n2 kvs (seedList db n1 kvs).1 tf1 g1 hr1 hpw
  rw [appInfoKVs, appInfoKVs, g1, j1]
  show tf2.rows.map rowKV = tf1.rows.map rowKV
  rw [j3, filter_map_rowKV kvs tf1.rows, g3, List.filter_append]
  have hpairs : (kvs.map (fun q => ((some (SqlVal.textV q.1) : Option SqlVal),
      (some (SqlVal.textV q.2) : Option SqlVal)))).filter (fun ab => kvs.all
        (fun q => !(ab.1 == some (SqlVal.textV q.1)))) = [] := by
    apply List.filter_eq_nil.mpr
    intro x hx
    obtain ⟨q, hq, hxq⟩ := List.mem_map.mp hx
    subst hxq
    intro hall
    have := List.all_eq_true.mp hall q hq
    simp at this
  have hself : ((t.rows.filter (fun r => kvs.all
      (fun q => !(r.lookup "key" == some (SqlVal.textV q.1))))).map rowKV).filter
        (fun ab => kvs.all (fun q => !(ab.1 == some (SqlVal.textV q.1)))) =
      (t.rows.filter (fun r => kvs.all
        (fun q => !(r.lookup "key" == some (SqlVal.textV q.1))))).map rowKV := by
    apply List.filter_eq_self.mpr
    intro x hx
    obtain ⟨r, hrm, hxr⟩ := List.mem_map.mp hx
    subst hxr
    exact (List.mem_filter.mp hrm).2
  rw [hpairs, hself, List.append_nil]

theorem resolveDbPath_written (cwd p : String) (habs : isAbsB p = true)
    (hn : ∀ c ∈ p.toList, ¬ c = '\n') (hs : stripL p.toList = p.toList)
    (hnorm : normpath p = p) :
    resolveDbPath cwd (some (connDescriptorContent p)) = p := by
  obtain ⟨pr, hpl⟩ : ∃ pr, p.toList = '/' :: pr := by
    cases hp : p.toList with
    | nil => rw [isAbsB, hp] at habs; exact absurd habs (by decide)
    | cons c cs =>
      rw [isAbsB, hp] at habs
      simp only [beq_iff_eq] at habs
      exact ⟨cs, by rw [habs]⟩
  have hparse : parseDbPathFromConnectionFile (some (connDescriptorContent p)) = some p :=
    parse_descriptor p pr hpl hn hs
  rw [resolveDbPath, hparse]
  show (if p = "" then abspath cwd DB_NAME else abspath cwd p) = p
  have hpne : ¬ p = "" := by
    intro h
    rw [h] at hpl
    simp at hpl
  rw [if_neg hpne, abspath_absolute cwd p habs, hnorm]

theorem exporterPhase_fields (w1 : World) (p : String) (cwf mdf ewf : Bool) :
    (exporterPhase w1 p cwf mdf ewf).world.cwd = w1.cwd ∧
    (exporterPhase w1 p cwf mdf ewf).world.dbFiles = w1.dbFiles ∧
    (exporterPhase w1 p cwf mdf ewf).world.now = w1.now ∧
    (exporterPhase w1 p cwf mdf ewf).world.connectFails = w1.connectFails ∧
    (exporterPhase w1 p cwf mdf ewf).world.commitFails = w1.commitFails ∧
    (exporterPhase w1 p cwf mdf ewf).world.connWriteFails = w1.connWriteFails ∧
    (exporterPhase w1 p cwf mdf ewf).world.mkdirFails = w1.mkdirFails ∧
    (exporterPhase w1 p cwf mdf ewf).world.envWriteFails = w1.envWriteFails := by
  cases cwf <;> cases mdf <;> cases ewf <;> cases hv : w1.vizDirExists <;>
    simp [exporterPhase, hv]

theorem exporterPhase_connFile (w1 : World) (p : String) (cwf mdf ewf : Bool) :
    (exporterPhase w1 p cwf mdf ewf).world.connFile =
      (if cwf then w1.connFile else some (connDescriptorContent p)) := by
  cases cwf <;> cases mdf <;> cases ewf <;> cases hv : w1.vizDirExists <;>
    simp [exporterPhase, hv]

theorem exporterPhase_exit0_viz (w1 : World) (p : String) (cwf mdf ewf : Bool)
    (h : (exporterPhase w1 p cwf mdf ewf).exitCode = 0) :
    (exporterPhase w1 p cwf mdf ewf).world.vizDirExists = true := by
  cases cwf <;> cases mdf <;> cases ewf <;> cases hv : w1.vizDirExists <;>
    simp_all [exporterPhase, hv]

theorem mainW1_fields (w : World) :
    (mainW1 w).cwd = w.cwd ∧ (mainW1 w).connFile = w.connFile ∧
    (mainW1 w).envFile = w.envFile ∧ (mainW1 w).now = w.now ∧
    (mainW1 w).connectFails = w.connectFails ∧ (mainW1 w).commitFails = w.commitFails ∧
    (mainW1 w).connWriteFails = w.connWriteFails ∧ (mainW1 w).mkdirFails = w.mkdirFails ∧
    (mainW1 w).envWriteFails = w.envWriteFails := by
  rw [mainW1]
  split <;> exact ⟨rfl, rfl, rfl, rfl, rfl, rfl, rfl, rfl, rfl⟩

theorem mainW1_dbFiles (w : World) (hcf : w.connectFails = false) :
    (mainW1 w).dbFiles = upsertA w.dbFiles (mainDbPath w) (mainPhase w).db := by
  rw [mainW1, hcf]
  simp

/-- An `app_info` table that pre-exists with `key` and `value` columns
but without the UNIQUE constraint on `key`. -/
def c1BadCols : List ColumnDef :=
  [ { name := "key", type := "TEXT", notnull := false, dflt := ColDefault.noneD,
      rowidAlias := false, uniq := false },
    { name := "value", type := "TEXT", notnull := false, dflt := ColDefault.noneD,
      rowidAlias := false, uniq := false } ]

def c1BadTable : Table :=
  { cols := c1BadCols, rows := [], seq := 0 }

/-- A starting state whose database file already holds an `app_info`
table lacking the UNIQUE constraint on `key`. -/
def c1World : World :=
  { freshWorld with dbFiles :=
      [("/work/myapp.db", { tables := [("app_info", c1BadTable)], triggers := [] })] }

/-- C1 counterexample: when the database file pre-exists with an
`app_info` table whose `key` column is not UNIQUE, `INSERT OR REPLACE`
never replaces anything; the first run exits 0 with 4 seed rows, and
the second run (which also raises no error) appends 4 more, so the
final `app_info` rows differ from those after one run — running twice
is not the same as running once. -/
theorem claim_C1_counterexample :
    (runMain c1World).exitCode = 0 ∧
    (runMain (runMain c1World).world).dbError = none ∧
    (appInfoKVs (dbFileAt (runMain c1World).world (mainDbPath c1World))).length = 4 ∧
    (appInfoKVs (dbFileAt (runMain (runMain c1World).world).world
        (mainDbPath c1World))).length = 8 ∧
    ¬ appInfoKVs (dbFileAt (runMain (runMain c1World).world).world (mainDbPath c1World)) =
      appInfoKVs (dbFileAt (runMain c1World).world (mainDbPath c1World)) := by
  decide

/-- C1 (amended): running the procedure twice in succession is the
same as running it once — same resolved path, same final schema, same
`app_info` key/value rows, and the second run raises no error and
exits 0 — provided (i) the first run exited 0, (ii) the database
file's pre-existing `app_info` table, if any, declares the script's
own schema (in particular `key` UNIQUE; see the counterexample), and
(iii) the resolved path survives the descriptor round trip (absolute,
no newline, whitespace-strip-stable, `normpath`-fixed; see C6). -/
theorem claim_C1_amended (w : World)
    (h0 : (runMain w).exitCode = 0)
    (hcompat : appInfoCompat (dbFileAt w (mainDbPath w)) = true)
    (habs : isAbsB (mainDbPath w) = true)
    (hn : ∀ c ∈ (mainDbPath w).toList, ¬ c = '\n')
    (hs : stripL (mainDbPath w).toList = (mainDbPath w).toList)
    (hnorm : normpath (mainDbPath w) = mainDbPath w) :
    (runMain (runMain w).world).dbError = none ∧
    (runMain (runMain w).world).exitCode = 0 ∧
    mainDbPath (runMain w).world = mainDbPath w ∧
    dbSchema (dbFileAt (runMain (runMain w).world).world (mainDbPath w)) =
      dbSchema (dbFileAt (runMain w).world (mainDbPath w)) ∧
    appInfoKVs (dbFileAt (runMain (runMain w).world).world (mainDbPath w)) =
      appInfoKVs (dbFileAt (runMain w).world (mainDbPath w)) := by
  have he : (mainPhase w).err = none := by
    cases hx : (mainPhase w).err with
    | some e =>
      rw [runMain_err_case w e hx] at h0
      have h1 : (1 : Nat) = 0 := h0
      exact absurd h1 (by decide)
    | none => rfl
  have hcf : w.connectFails = false := by
    cases hc : w.connectFails with
    | true =>
      rw [mainPhase, hc,
        dbPhase_connectFails_err (dbFileAt w (mainDbPath w)) w.now w.commitFails] at he
      exact absurd he (by simp)
    | false => rfl
  have he' : (dbPhase (dbFileAt w (mainDbPath w)) w.now false w.commitFails).err = none := by
    have h := he
    rw [mainPhase, hcf] at h
    exact h
  obtain ⟨d1, d2, hens, hseed, hcm, hdb⟩ :=
    dbPhase_ok (dbFileAt w (mainDbPath w)) w.now w.commitFails he'
  have hdbm : (mainPhase w).db = d2 := by
    rw [mainPhase, hcf]
    exact hdb
  have hex0 : (mainExp w).exitCode = 0 := by
    rw [runMain_ok_case w he] at h0
    exact h0
  have hw2 : (runMain w).world = (mainExp w).world := by
    rw [runMain_ok_case w he]
  have hviz2 : (runMain w).world.vizDirExists = true := by
    rw [hw2, mainExp]
    refine exporterPhase_exit0_viz (mainW1 w) (mainDbPath w) w.connWriteFails w.mkdirFails
      w.envWriteFails ?_
    rw [mainExp] at hex0
    exact hex0
  obtain ⟨f1, f2, f3, f4, f5, f6, f7, f8⟩ :=
    exporterPhase_fields (mainW1 w) (mainDbPath w) w.connWriteFails w.mkdirFails w.envWriteFails
  obtain ⟨m1, m2, m3, m4, m5, m6, m7, m8, m9⟩ := mainW1_fields w
  have hw2cwd : (runMain w).world.cwd = w.cwd := by
    rw [hw2, mainExp, f1, m1]
  have hw2cf : (runMain w).world.connectFails = false := by
    rw [hw2, mainExp, f4, m5, hcf]
  have hw2cm : (runMain w).world.commitFails = false := by
    rw [hw2, mainExp, f5, m6, hcm]
  have hw2files : (runMain w).world.dbFiles = upsertA w.dbFiles (mainDbPath w) d2 := by
    rw [hw2, mainExp, f2, mainW1_dbFiles w hcf, hdbm]
  have hw2conn : (runMain w).world.connFile =
      (if w.connWriteFails then w.connFile else some (connDescriptorContent (mainDbPath w))) := by
    rw [hw2, mainExp, exporterPhase_connFile, m2]
  have hpath2 : mainDbPath (runMain w).world = mainDbPath w := by
    rw [mainDbPath, hw2cwd, hw2conn]
    cases hcwf : w.connWriteFails with
    | true =>
      rw [if_pos rfl, mainDbPath]
    | false =>
      rw [if_neg (by decide)]
      exact resolveDbPath_written w.cwd (mainDbPath w) habs hn hs hnorm
  have hfile1 : dbFileAt (runMain w).world (mainDbPath w) = d2 := by
    rw [dbFileAt, hw2files, upsertA_lookup_self]
    rfl
  have hready1 : appInfoReady d1 = true := by
    obtain ⟨hsch, hdisj⟩ := ensureAllTables_post (dbFileAt w (mainDbPath w)) d1 hens
    rcases hdisj with hsame | hfresh
    · rw [appInfoReady_congr (dbFileAt w (mainDbPath w)) d1 hsame]
      rw [appInfoCompat] at hcompat
      cases hl0 : (dbFileAt w (mainDbPath w)).tables.lookup "app_info" with
      | none =>
        rw [schemaReady] at hsch
        simp only [Bool.and_eq_true] at hsch
        have hA := hsch.1.1.1.1
        rw [tableExists, hsame, hl0] at hA
        exact absurd hA (by decide)
      | some t =>
        simp only [hl0] at hcompat
        exact hcompat
    · rw [appInfoReady, hfresh.2]
      decide
  have hschema1 : schemaReady d1 = true := (ensureAllTables_post _ d1 hens).1
  have hpwseed : List.Pairwise (fun a b => ¬ a.1 = b.1) seedPairs := by decide
  have hd2eq : d2 = (seedList d1 w.now seedPairs).1 := by
    rw [seedAll] at hseed
    exact (congrArg Prod.fst hseed).symm
  have hready2 : appInfoReady d2 = true := by
    rw [hd2eq]
    exact (seedList_spec w.now seedPairs d1 hready1 hpwseed).2.1
  have hschema2 : schemaReady d2 = true := by
    rw [hd2eq]
    exact seedList_schemaReady w.now seedPairs d1 hready1 hschema1
  have hens2 : ensureAllTables d2 = (d2, none) := ensureAllTables_ready d2 hschema2
  rcases hseed2 : seedAll d2 (runMain w).world.now with ⟨d3, e3⟩
  have he3 : e3 = none := by
    have hx : (seedList d2 (runMain w).world.now seedPairs).2 = none :=
      (seedList_spec (runMain w).world.now seedPairs d2 hready2 hpwseed).1
    rw [seedAll] at hseed2
    rw [hseed2] at hx
    exact hx
  subst he3
  have hd3eq : d3 = (seedList d2 (runMain w).world.now seedPairs).1 := by
    rw [seedAll] at hseed2
    exact (congrArg Prod.fst hseed2).symm
  have hphase2 : mainPhase (runMain w).world =
      dbPhase d2 (runMain w).world.now false false := by
    rw [mainPhase, hpath2, hfile1, hw2cf, hw2cm]
  have hph2err : (mainPhase (runMain w).world).err = none := by
    rw [hphase2, dbPhase]
    simp [hens2, hseed2]
  have hph2db : (mainPhase (runMain w).world).db = d3 := by
    rw [hphase2, dbPhase]
    simp [hens2, hseed2]
  have hrm2 := runMain_ok_case (runMain w).world hph2err
  have hw3files : (runMain (runMain w).world).world.dbFiles =
      upsertA (runMain w).world.dbFiles (mainDbPath (runMain w).world)
        (mainPhase (runMain w).world).db := by
    rw [hrm2]
    show (mainExp (runMain w).world).world.dbFiles = _
    rw [mainExp]
    obtain ⟨g1, g2, g3, g4, g5, g6, g7, g8⟩ :=
      exporterPhase_fields (mainW1 (runMain w).world) (mainDbPath (runMain w).world)
        (runMain w).world.connWriteFails (runMain w).world.mkdirFails
        (runMain w).world.envWriteFails
    rw [g2]
    exact mainW1_dbFiles (runMain w).world hw2cf
  have hfile2 : dbFileAt (runMain (runMain w).world).world (mainDbPath w) = d3 := by
    rw [dbFileAt, hw3files, hpath2, hph2db, upsertA_lookup_self]
    rfl
  refine ⟨?_, ?_, hpath2, ?_, ?_⟩
  · rw [runMain_dbError]
    exact hph2err
  · rw [hrm2]
    show (mainExp (runMain w).world).exitCode = 0
    rw [mainExp]
    have hviz1a : (mainW1 (runMain w).world).vizDirExists = true := by
      rw [mainW1_vizDir]
      exact hviz2
    exact (exporterPhase_spec (mainW1 (runMain w).world) (mainDbPath (runMain w).world)
      (runMain w).world.connWriteFails (runMain w).world.mkdirFails
      (runMain w).world.envWriteFails (Or.inl hviz1a)).1
  · rw [hfile1, hfile2, hd3eq]
    exact seedList_dbSchema (runMain w).world.now seedPairs d2 hready2
  · rw [hfile1, hfile2, hd3eq, hd2eq]
    exact seed_idem_kvs d1 w.now (runMain w).world.now seedPairs hready1 hpwseed

/-- C1 witness: from the fresh working directory, the second run of
the whole procedure raises no error, resolves the same path, and
leaves the same schema and the same `app_info` rows as the first. -/
theorem claim_C1_witness :
    (runMain (runMain freshWorld).world).dbError = none ∧
    (runMain (runMain freshWorld).world).exitCode = 0 ∧
    mainDbPath (runMain freshWorld).world = mainDbPath freshWorld ∧
    dbSchema (dbFileAt (runMain (runMain freshWorld).world).world (mainDbPath freshWorld)) =
      dbSchema (dbFileAt (runMain freshWorld).world (mainDbPath freshWorld)) ∧
    appInfoKVs (dbFileAt (runMain (runMain freshWorld).world).world (mainDbPath freshWorld)) =
      appInfoKVs (dbFileAt (runMain freshWorld).world (mainDbPath freshWorld)) :=
  claim_C1_amended freshWorld (by decide) (by decide) (by decide) (by decide) (by decide)
    (by decide)
